/-
  Verification of the chatterbox async TTS job engine
  (src/services/chatterbox/task_manager.py and src/services/chatterbox/async_tts.py).

  Shallow embedding conventions:
  * Python dict `TaskManager.tasks` is an association list `List (String × TTSTask)`
    with first-match lookup; insertion replaces an existing binding in place or
    appends a fresh one, matching dict semantics (keys are unique in practice,
    since ids come from uuid4).
  * `datetime` timestamps are integers (`Int`); `datetime.now()` becomes an
    explicit `now` argument threaded into each mutating operation.
  * Python floats used for `progress` are rationals (`ℚ`); the clamp
    `min(100.0, max(0.0, p))` is exact on the values the code manipulates.
  * External collaborators of the driver (synthesis engine, filesystem, text
    chunker, audio encoder) are an oracle `Env`, per the spec these are opaque
    collaborators outside the core.
  * Exceptions become `Except String`; the driver catches every failure and
    converts it to `set_task_failed`, as in the source `try/except`.
  * Logging calls are modelled, where a claim needs them, by a companion
    function returning the list of emitted log entries.
-/
import Mathlib

/-- `TaskStatus = Literal["queued", "processing", "completed", "failed", "cancelled"]`
    (task_manager.py line 20). -/
inductive TaskStatus where
  | queued
  | processing
  | completed
  | failed
  | cancelled
deriving DecidableEq, Repr

/-- A status is terminal iff it is in `["completed", "failed", "cancelled"]`
    (the list tested by `cleanup_old_tasks`, task_manager.py line 110). -/
def TaskStatus.isTerminal : TaskStatus → Bool
  | .completed => true
  | .failed => true
  | .cancelled => true
  | .queued => false
  | .processing => false

/-- Position of a status along the state machine
    queued → processing → {completed, failed, cancelled}. -/
def TaskStatus.rank : TaskStatus → Nat
  | .queued => 0
  | .processing => 1
  | .completed => 2
  | .failed => 2
  | .cancelled => 2

/-- `voice_mode: Literal["predefined", "clone"]` (models.py line 52). -/
inductive VoiceMode where
  | predefined
  | clone
deriving DecidableEq, Repr

/-- The fields of `CustomTTSRequest` (models.py lines 47-96) that the job
    engine inspects.  Generation parameters (temperature, exaggeration,
    cfg_weight, seed, language) are forwarded opaquely to the synthesis
    engine and play no role in orchestration, so they are not materialised. -/
structure CustomTTSRequest where
  text : String
  voice_mode : VoiceMode
  predefined_voice_id : Option String
  reference_audio_filename : Option String
  output_format : Option String
  split_text : Option Bool
  chunk_size : Option Int
  speed_factor : Option ℚ
deriving DecidableEq, Repr

/-- `TTSTask` dataclass (task_manager.py lines 24-39). -/
structure TTSTask where
  task_id : String
  status : TaskStatus
  progress : ℚ
  current_stage : String
  created_at : Int
  updated_at : Int
  request_data : CustomTTSRequest
  result_path : Option String := none
  error_message : Option String := none
  total_chunks : Nat := 0
  completed_chunks : Nat := 0
  output_format : String := "wav"
deriving DecidableEq, Repr

/-- Log levels of the `logging` calls that the embedding tracks. -/
inductive LogLevel where
  | debug
  | info
  | warning
  | error
deriving DecidableEq, Repr

/-- Observable steps of `remove_task` (task_manager.py lines 197-225), in the
    chronological order the coroutine performs them. -/
inductive RemovalEvent where
  | popRecord
  | cancelRequest
  | awaitExit
  | deleteFile
deriving DecidableEq, Repr

/-- First-match lookup in the registry: `self.tasks.get(task_id)`. -/
def lookupTask (l : List (String × TTSTask)) (id : String) : Option TTSTask :=
  (l.find? (fun p => p.1 = id)).map (fun p => p.2)

/-- In-place mutation of the binding for `id`, if present: the body of every
    `if task_id in self.tasks: task = self.tasks[task_id]; ...` guard. -/
def updateTask (l : List (String × TTSTask)) (id : String) (f : TTSTask → TTSTask) :
    List (String × TTSTask) :=
  l.map (fun p => if p.1 = id then (p.1, f p.2) else p)

/-- `self.tasks[task_id] = task`: replace an existing binding, else append. -/
def insertTask (l : List (String × TTSTask)) (id : String) (t : TTSTask) :
    List (String × TTSTask) :=
  if l.any (fun p => p.1 = id) then
    l.map (fun p => if p.1 = id then (p.1, t) else p)
  else
    l ++ [(id, t)]

/-- `self.tasks.pop(task_id, None)`, state part. -/
def eraseTask (l : List (String × TTSTask)) (id : String) : List (String × TTSTask) :=
  l.filter (fun p => p.1 ≠ id)

/-- Whole-manager state.  `running` models `self._running_tasks`: each live
    asyncio handle is a pair (task_id, done-flag of the handle).  `files`
    models the set of result files currently on disk, so that `remove_task`
    can express its filesystem effect. -/
structure TMState where
  tasks : List (String × TTSTask) := []
  running : List (String × Bool) := []
  files : List String := []
deriving DecidableEq, Repr

/-- The empty manager, as built by `TaskManager.__init__`. -/
def initState : TMState := {}

def lookupRunning (l : List (String × Bool)) (id : String) : Option Bool :=
  (l.find? (fun p => p.1 = id)).map (fun p => p.2)

def eraseRunning (l : List (String × Bool)) (id : String) : List (String × Bool) :=
  l.filter (fun p => p.1 ≠ id)

/-- The fresh record built by `create_task` (task_manager.py lines 125-134).
    `output_format=request.output_format or "wav"`: Python `or` falls back on
    `None` and on the empty string alike. -/
def freshTask (id : String) (req : CustomTTSRequest) (now : Int) : TTSTask :=
  { task_id := id
    status := .queued
    progress := 0
    current_stage := "Task created"
    created_at := now
    updated_at := now
    request_data := req
    output_format :=
      match req.output_format with
      | none => "wav"
      | some f => if f = "" then "wav" else f }

/-- `TaskManager.create_task` (task_manager.py lines 120-138); the uuid4 id is
    an explicit argument. -/
def create_task (st : TMState) (id : String) (req : CustomTTSRequest) (now : Int) : TMState :=
  { st with tasks := insertTask st.tasks id (freshTask id req now) }

/-- `TaskManager.get_task` (task_manager.py lines 140-143). -/
def get_task (st : TMState) (id : String) : Option TTSTask :=
  lookupTask st.tasks id

/-- The clamp in `update_task_progress`: `min(100.0, max(0.0, progress))`. -/
def clampProgress (p : ℚ) : ℚ := min 100 (max 0 p)

/-- Record-level effect of `update_task_progress` on a found task
    (task_manager.py lines 150-155): clamp progress, overwrite stage, refresh
    `updated_at`, and overwrite status when one is passed. -/
def progressUpdate (progress : ℚ) (stage : String) (status : Option TaskStatus)
    (now : Int) (t : TTSTask) : TTSTask :=
  let t1 := { t with progress := clampProgress progress
                     current_stage := stage
                     updated_at := now }
  match status with
  | some s => { t1 with status := s }
  | none => t1

/-- `TaskManager.update_task_progress` (task_manager.py lines 145-157), store
    effect.  `if status:` is Python truthiness on an `Optional` of non-empty
    string literals, i.e. `status is not None`.  Unknown ids fall through the
    `if task_id in self.tasks` guard: no mutation and no exception. -/
def update_task_progress (st : TMState) (task_id : String) (progress : ℚ)
    (stage : String) (status : Option TaskStatus) (now : Int) : TMState :=
  { st with tasks := updateTask st.tasks task_id (progressUpdate progress stage status now) }

/-- The log entries `update_task_progress` emits: a single `logger.debug`
    inside the `if task_id in self.tasks` branch, nothing otherwise
    (task_manager.py lines 148-157 have no else branch). -/
def update_task_progress_logs (st : TMState) (task_id : String) (progress : ℚ)
    (stage : String) : List (LogLevel × String) :=
  if (lookupTask st.tasks task_id).isSome then
    [(LogLevel.debug, s!"Task {task_id}: {progress}% - {stage}")]
  else
    []

/-- Record-level effect of `set_task_completed` (task_manager.py lines 163-168). -/
def completedUpdate (path : String) (now : Int) (t : TTSTask) : TTSTask :=
  { t with status := .completed
           progress := 100
           current_stage := "Completed"
           result_path := some path
           updated_at := now }

/-- `TaskManager.set_task_completed` (task_manager.py lines 159-170). -/
def set_task_completed (st : TMState) (task_id : String) (path : String) (now : Int) : TMState :=
  { st with tasks := updateTask st.tasks task_id (completedUpdate path now) }

/-- Record-level effect of `set_task_failed` (task_manager.py lines 176-180);
    note that `progress` is left untouched. -/
def failedUpdate (msg : String) (now : Int) (t : TTSTask) : TTSTask :=
  { t with status := .failed
           current_stage := "Failed"
           error_message := some msg
           updated_at := now }

/-- `TaskManager.set_task_failed` (task_manager.py lines 172-182). -/
def set_task_failed (st : TMState) (task_id : String) (msg : String) (now : Int) : TMState :=
  { st with tasks := updateTask st.tasks task_id (failedUpdate msg now) }

/-- Record-level effect of `set_task_chunks` (task_manager.py line 188). -/
def chunksUpdate (n : Nat) (t : TTSTask) : TTSTask :=
  { t with total_chunks := n }

/-- `TaskManager.set_task_chunks` (task_manager.py lines 184-188). -/
def set_task_chunks (st : TMState) (task_id : String) (n : Nat) : TMState :=
  { st with tasks := updateTask st.tasks task_id (chunksUpdate n) }

/-- Record-level effect of `increment_completed_chunks` (task_manager.py line 195). -/
def incrUpdate (t : TTSTask) : TTSTask :=
  { t with completed_chunks := t.completed_chunks + 1 }

/-- `TaskManager.increment_completed_chunks` (task_manager.py lines 190-195). -/
def increment_completed_chunks (st : TMState) (task_id : String) : TMState :=
  { st with tasks := updateTask st.tasks task_id incrUpdate }

/-- The result-file cleanup at the end of `remove_task` (task_manager.py
    lines 217-222): unlink `task.result_path` when it is set and exists. -/
def fileCleanup (files : List String) (rp : Option String) :
    List String × List RemovalEvent :=
  match rp with
  | none => (files, [])
  | some p =>
      if files.contains p then
        (files.filter (fun q => q ≠ p), [RemovalEvent.deleteFile])
      else
        (files, [])

/-- `TaskManager.remove_task` (task_manager.py lines 197-225): pop the record
    first; if the id has a live handle, pop it and, when not yet done, cancel
    and await it; finally unlink the result file.  Returns the new state, the
    boolean result, and the chronological list of observable events. -/
def remove_task (st : TMState) (task_id : String) :
    TMState × Bool × List RemovalEvent :=
  match lookupTask st.tasks task_id with
  | none => (st, false, [])
  | some task =>
      let newRunning :=
        match lookupRunning st.running task_id with
        | none => st.running
        | some _ => eraseRunning st.running task_id
      let cancelEvents : List RemovalEvent :=
        match lookupRunning st.running task_id with
        | none => []
        | some done =>
            if done then [] else [RemovalEvent.cancelRequest, RemovalEvent.awaitExit]
      let fc := fileCleanup st.files task.result_path
      ({ tasks := eraseTask st.tasks task_id, running := newRunning, files := fc.1 },
        true,
        RemovalEvent.popRecord :: cancelEvents ++ fc.2)

/-- `TaskManager.cleanup_old_tasks` (task_manager.py lines 103-118): snapshot
    the ids whose status is terminal and whose `updated_at` is older than
    `now - retention`, then `remove_task` each.  `retention` stands for
    `timedelta(hours=self.task_timeout_hours)`. -/
def cleanup_old_tasks (st : TMState) (now retention : Int) : TMState :=
  let cutoff := now - retention
  let toRemove :=
    (st.tasks.filter (fun p => p.2.status.isTerminal ∧ p.2.updated_at < cutoff)).map
      (fun p => p.1)
  toRemove.foldl (fun s id => (remove_task s id).1) st

/-- `TaskManager.get_running_task_count` (task_manager.py lines 227-230). -/
def get_running_task_count (st : TMState) : Nat :=
  (st.tasks.filter (fun p => p.2.status = TaskStatus.processing)).length

/-- The public mutating operations of the Task Store, as an operation
    alphabet for reasoning about arbitrary call sequences. -/
inductive StoreOp where
  | create (id : String) (req : CustomTTSRequest) (now : Int)
  | updateProgress (id : String) (progress : ℚ) (stage : String)
      (status : Option TaskStatus) (now : Int)
  | setCompleted (id : String) (path : String) (now : Int)
  | setFailed (id : String) (msg : String) (now : Int)
  | setChunks (id : String) (n : Nat)
  | incrChunks (id : String)
  | remove (id : String)
  | cleanup (now retention : Int)

/-- Interpretation of one `StoreOp` by the corresponding `TaskManager`
    method. -/
def applyOp (st : TMState) : StoreOp → TMState
  | .create id req now => create_task st id req now
  | .updateProgress id p stage status now => update_task_progress st id p stage status now
  | .setCompleted id path now => set_task_completed st id path now
  | .setFailed id msg now => set_task_failed st id msg now
  | .setChunks id n => set_task_chunks st id n
  | .incrChunks id => increment_completed_chunks st id
  | .remove id => (remove_task st id).1
  | .cleanup now retention => cleanup_old_tasks st now retention

/-- A sequence of store operations, applied left to right. -/
def applyOps (ops : List StoreOp) (st : TMState) : TMState :=
  ops.foldl applyOp st

/-- Oracle for the external collaborators of the driver
    (async_tts.py): synthesis engine, filesystem, text chunker, encoder.
    `synth_result i` is the outcome of the i-th `engine.synthesize` call:
    `some sr` for a waveform at sample rate `sr`, `none` for the engine's
    failure value `(None, None)`.  `concat_ok` is whether
    `np.concatenate` succeeds on the accumulated segments; `encode_len` the
    byte length returned by `utils.encode_audio` (`none` for `None`);
    `save_path` the path `_save_result_file` persists to. -/
structure Env where
  model_loaded : Bool
  predefined_voices_path : String
  reference_audio_path : String
  is_file : String → Bool
  chunk_text : String → Int → List String
  synth_result : Nat → Option Nat
  concat_ok : Bool
  concat_msg : String
  encode_len : Option Nat
  save_path : String
  default_output_format : String

/-- `_validate_voice_config` (async_tts.py lines 174-200).  The Python
    truthiness tests `if not request.predefined_voice_id` and
    `if not request.reference_audio_filename` reject both `None` and the
    empty string.  `voice_mode` is a two-value `Literal`, so the final
    `Invalid voice mode` branch is unreachable and has no counterpart. -/
def validate_voice_config (env : Env) (req : CustomTTSRequest) : Except String String :=
  match req.voice_mode with
  | .predefined =>
      match req.predefined_voice_id with
      | none => .error "Predefined voice ID is required for predefined voice mode"
      | some vid =>
          if vid = "" then
            .error "Predefined voice ID is required for predefined voice mode"
          else
            let voice_path := env.predefined_voices_path ++ "/" ++ vid
            if env.is_file voice_path then .ok voice_path
            else .error s!"Predefined voice file not found: {vid}"
  | .clone =>
      match req.reference_audio_filename with
      | none => .error "Reference audio filename is required for clone voice mode"
      | some ref =>
          if ref = "" then
            .error "Reference audio filename is required for clone voice mode"
          else
            let voice_path := env.reference_audio_path ++ "/" ++ ref
            if env.is_file voice_path then .ok voice_path
            else .error s!"Reference audio file not found: {ref}"

/-- `_process_text_chunks` (async_tts.py lines 203-215).  The splitting
    condition uses Python truthiness on `request.chunk_size` (`None` and `0`
    both select the default 120 * 1.5), while `chunk_size_to_use` uses
    `is not None` (so `0` is kept there). -/
def process_text_chunks (env : Env) (req : CustomTTSRequest) : List String :=
  let threshold : ℚ :=
    match req.chunk_size with
    | none => 120 * (3 / 2)
    | some cs => if cs = 0 then 120 * (3 / 2) else (cs : ℚ) * (3 / 2)
  if req.split_text = some true ∧ (req.text.length : ℚ) > threshold then
    let chunk_size_to_use : Int :=
      match req.chunk_size with
      | some cs => cs
      | none => 120
    env.chunk_text req.text chunk_size_to_use
  else
    [req.text]

/-- `output_format_str = request.output_format if request.output_format else
    get_audio_output_format()` (async_tts.py line 149); the configured default
    comes from the environment. -/
def resolveFormat (req : CustomTTSRequest) (dflt : String) : String :=
  match req.output_format with
  | none => dflt
  | some f => f

/-- Progress reported before synthesizing chunk `i` of `n`:
    `chunk_progress_start + (i / len(text_chunks)) * chunk_progress_range`
    (async_tts.py lines 85-89). -/
def chunkProgress (i n : Nat) : ℚ := 15 + ((i : ℚ) / (n : ℚ)) * 65

/-- The per-chunk loop of `generate_tts_async` (async_tts.py lines 88-129):
    report progress, synthesize the chunk, raise on the engine failure value,
    otherwise accumulate (no store effect) and increment the completed-chunks
    counter.  Speed-factor post-processing and sample-rate bookkeeping touch
    no store state.  `n` is the total chunk count, `i` the index of the first
    chunk of `cs` in the full list. -/
def synthLoop (env : Env) (task_id : String) (n : Nat) (now : Int) :
    TMState → List String → Nat → TMState × Except String Unit
  | st, [], _ => (st, .ok ())
  | st, chunk :: rest, i =>
      let clen := chunk.length
      let st1 := update_task_progress st task_id (chunkProgress i n)
        (s!"Synthesizing chunk {i+1}/{n} ({clen} chars)") none now
      match env.synth_result i with
      | none => (st1, .error s!"TTS engine failed to synthesize audio for chunk {i+1}")
      | some _sr =>
          let st2 := increment_completed_chunks st1 task_id
          synthLoop env task_id n now st2 rest (i + 1)

/-- The `try` body of `generate_tts_async` (async_tts.py lines 50-166),
    returning the state after its store effects and either the saved path or
    the message of the exception it raises. -/
def generate_tts_body (env : Env) (task_id : String) (req : CustomTTSRequest)
    (now : Int) (st : TMState) : TMState × Except String String :=
  let st1 := update_task_progress st task_id 0 "Starting TTS generation"
    (some .processing) now
  if env.model_loaded = false then
    (st1, .error "TTS engine model is not currently loaded or available")
  else
    let st2 := update_task_progress st1 task_id 2 "Model validation complete" none now
    match validate_voice_config env req with
    | .error msg => (st2, .error msg)
    | .ok _voice =>
        let st3 := update_task_progress st2 task_id 5 "Voice configuration validated" none now
        let chunks := process_text_chunks env req
        if chunks.isEmpty then
          (st3, .error "Text processing resulted in no usable chunks")
        else
          let n := chunks.length
          let st4 := set_task_chunks st3 task_id n
          let st5 := update_task_progress st4 task_id 10
            (s!"Text split into {n} chunks") none now
          match synthLoop env task_id n now st5 chunks 0 with
          | (st6, .error msg) => (st6, .error msg)
          | (st6, .ok _) =>
              let st7 := update_task_progress st6 task_id 80
                "All chunks synthesized, concatenating audio" none now
              if env.concat_ok = false then
                (st7, .error s!"Audio concatenation error: {env.concat_msg}")
              else
                let st8 := update_task_progress st7 task_id 85
                  "Audio concatenation complete" none now
                let st9 := update_task_progress st8 task_id 90
                  "Applying final post-processing" none now
                let fmt := resolveFormat req env.default_output_format
                let encodeFailed :=
                  match env.encode_len with
                  | none => true
                  | some len => len < 100
                if encodeFailed then
                  (st9, .error s!"Failed to encode audio to {fmt} or generated invalid audio")
                else
                  let st10 := update_task_progress st9 task_id 95
                    (s!"Audio encoded to {fmt}") none now
                  let path := env.save_path
                  let st11 := update_task_progress st10 task_id 100
                    "TTS generation completed successfully" none now
                  (st11, .ok path)

/-- `generate_tts_async` (async_tts.py lines 34-171): run the try body; on
    any exception, `set_task_failed` with its message and return `None`. -/
def generate_tts_async (env : Env) (task_id : String) (req : CustomTTSRequest)
    (now : Int) (st : TMState) : TMState × Option String :=
  match generate_tts_body env task_id req now st with
  | (st1, .ok path) => (st1, some path)
  | (st1, .error msg) => (set_task_failed st1 task_id msg now, none)

/-- Modelled from the spec: the submission-side glue that awaits the driver
    and records its result is not under src/ (nothing there calls
    `set_task_completed`; only the HTTP layer does).  Spec section 4.2 step 7:
    "Persist the encoded result and call `mark_completed` with its
    location." -/
def run_tts_job (env : Env) (task_id : String) (req : CustomTTSRequest)
    (now : Int) (st : TMState) : TMState :=
  match generate_tts_async env task_id req now st with
  | (st1, some path) => set_task_completed st1 task_id path now
  | (st1, none) => st1

theorem lookupTask_cons (q : String × TTSTask) (l : List (String × TTSTask)) (j : String) :
    lookupTask (q :: l) j = if q.1 = j then some q.2 else lookupTask l j := by
  by_cases h : q.1 = j <;> simp [lookupTask, List.find?_cons, h]

theorem updateTask_cons (p : String × TTSTask) (l : List (String × TTSTask))
    (id : String) (f : TTSTask → TTSTask) :
    updateTask (p :: l) id f =
      (if p.1 = id then (p.1, f p.2) else p) :: updateTask l id f := by
  by_cases h : p.1 = id <;> simp [updateTask, h]

theorem lookupTask_updateTask (l : List (String × TTSTask)) (id j : String)
    (f : TTSTask → TTSTask) :
    lookupTask (updateTask l id f) j =
      if j = id then (lookupTask l j).map f else lookupTask l j := by
  induction l with
  | nil => by_cases hj : j = id <;> simp [lookupTask, updateTask, hj]
  | cons p rest ih =>
      rw [updateTask_cons, lookupTask_cons, lookupTask_cons]
      by_cases hp : p.1 = id <;> by_cases hj : p.1 = j
      · have hji : j = id := by rw [← hj, hp]
        simp [hp, hj, hji]
      · have hij : ¬ id = j := fun h => hj (hp.trans h)
        have hji : ¬ j = id := fun h => hij h.symm
        simp [hp, hj, hij, hji, ih]
      · have hji : ¬ j = id := fun h => hp (by rw [hj, h])
        simp [hp, hj, hji]
      · simp [hp, hj, ih]

theorem eraseTask_cons (p : String × TTSTask) (l : List (String × TTSTask)) (id : String) :
    eraseTask (p :: l) id =
      if p.1 = id then eraseTask l id else p :: eraseTask l id := by
  by_cases h : p.1 = id <;> simp [eraseTask, List.filter_cons, h]

theorem lookupTask_eraseTask (l : List (String × TTSTask)) (id j : String) :
    lookupTask (eraseTask l id) j =
      if j = id then none else lookupTask l j := by
  induction l with
  | nil => by_cases hj : j = id <;> simp [lookupTask, eraseTask, hj]
  | cons p rest ih =>
      rw [eraseTask_cons]
      by_cases hp : p.1 = id <;> by_cases hj : p.1 = j
      · have hji : j = id := by rw [← hj, hp]
        rw [if_pos hp, ih, if_pos hji, lookupTask_cons, if_pos hj]
        simp [hji]
      · rw [if_pos hp, ih, lookupTask_cons, if_neg hj]
      · have hji : ¬ j = id := fun h => hp (by rw [hj, h])
        rw [if_neg hp, lookupTask_cons, if_pos hj, lookupTask_cons, if_pos hj, if_neg hji]
      · rw [if_neg hp, lookupTask_cons, if_neg hj, lookupTask_cons, if_neg hj, ih]

theorem lookupTask_eq_none_of_not_any (l : List (String × TTSTask)) (id : String)
    (h : l.any (fun p => p.1 = id) = false) :
    lookupTask l id = none := by
  unfold lookupTask
  rw [List.find?_eq_none.mpr]
  · rfl
  · intro x hx hpx
    rw [List.any_eq_false] at h
    exact h x hx hpx

theorem lookupTask_isSome_of_any (l : List (String × TTSTask)) (id : String)
    (h : l.any (fun p => p.1 = id) = true) :
    (lookupTask l id).isSome := by
  rw [List.any_eq_true] at h
  obtain ⟨x, hx, hxid⟩ := h
  have hfs : (List.find? (fun p => decide (p.1 = id)) l).isSome :=
    List.find?_isSome.mpr ⟨x, hx, hxid⟩
  obtain ⟨u, hu⟩ := Option.isSome_iff_exists.mp hfs
  simp [lookupTask, hu]

theorem lookupTask_append_single (l : List (String × TTSTask)) (id j : String)
    (t : TTSTask) (hnone : lookupTask l id = none) :
    lookupTask (l ++ [(id, t)]) j =
      if j = id then some t else lookupTask l j := by
  induction l with
  | nil =>
      rw [List.nil_append, lookupTask_cons]
      by_cases hj : j = id
      · rw [if_pos hj, if_pos hj.symm]
      · rw [if_neg hj, if_neg (fun h => hj h.symm)]
  | cons p rest ih =>
      rw [List.cons_append, lookupTask_cons]
      rw [lookupTask_cons] at hnone
      by_cases hj2 : p.1 = j
      · have hji : ¬ j = id := by
          intro h
          rw [h] at hj2
          rw [if_pos hj2] at hnone
          exact Option.some_ne_none _ hnone
        rw [if_pos hj2, lookupTask_cons, if_neg hji, if_pos hj2]
      · have hp : ¬ p.1 = id := by
          intro h
          rw [if_pos h] at hnone
          exact Option.some_ne_none _ hnone
        rw [if_neg hp] at hnone
        rw [if_neg hj2, ih hnone, lookupTask_cons]
        by_cases hj : j = id <;> simp [hj, hj2]

theorem lookupTask_insertTask (l : List (String × TTSTask)) (id j : String)
    (t : TTSTask) :
    lookupTask (insertTask l id t) j =
      if j = id then some t else lookupTask l j := by
  unfold insertTask
  by_cases hmem : l.any (fun p => p.1 = id) = true
  · rw [if_pos hmem]
    have hupd : l.map (fun p => if p.1 = id then (p.1, t) else p) =
        updateTask l id (fun _ => t) := rfl
    rw [hupd, lookupTask_updateTask]
    by_cases hj : j = id
    · subst hj
      have hs := lookupTask_isSome_of_any l j hmem
      obtain ⟨u, hu⟩ := Option.isSome_iff_exists.mp hs
      simp [hu]
    · simp [hj]
  · rw [if_neg hmem]
    exact lookupTask_append_single l id j t
      (lookupTask_eq_none_of_not_any l id (Bool.eq_false_iff.mpr hmem))

theorem lookup_create_task (st : TMState) (id : String) (req : CustomTTSRequest)
    (now : Int) (j : String) :
    lookupTask (create_task st id req now).tasks j =
      if j = id then some (freshTask id req now) else lookupTask st.tasks j :=
  lookupTask_insertTask st.tasks id j (freshTask id req now)

theorem lookup_update_task_progress (st : TMState) (id : String) (p : ℚ)
    (stage : String) (status : Option TaskStatus) (now : Int) (j : String) :
    lookupTask (update_task_progress st id p stage status now).tasks j =
      if j = id then (lookupTask st.tasks j).map (progressUpdate p stage status now)
      else lookupTask st.tasks j :=
  lookupTask_updateTask st.tasks id j (progressUpdate p stage status now)

theorem lookup_set_task_completed (st : TMState) (id path : String) (now : Int)
    (j : String) :
    lookupTask (set_task_completed st id path now).tasks j =
      if j = id then (lookupTask st.tasks j).map (completedUpdate path now)
      else lookupTask st.tasks j :=
  lookupTask_updateTask st.tasks id j (completedUpdate path now)

theorem lookup_set_task_failed (st : TMState) (id msg : String) (now : Int)
    (j : String) :
    lookupTask (set_task_failed st id msg now).tasks j =
      if j = id then (lookupTask st.tasks j).map (failedUpdate msg now)
      else lookupTask st.tasks j :=
  lookupTask_updateTask st.tasks id j (failedUpdate msg now)

theorem lookup_set_task_chunks (st : TMState) (id : String) (n : Nat) (j : String) :
    lookupTask (set_task_chunks st id n).tasks j =
      if j = id then (lookupTask st.tasks j).map (chunksUpdate n)
      else lookupTask st.tasks j :=
  lookupTask_updateTask st.tasks id j (chunksUpdate n)

theorem lookup_increment_completed_chunks (st : TMState) (id : String) (j : String) :
    lookupTask (increment_completed_chunks st id).tasks j =
      if j = id then (lookupTask st.tasks j).map incrUpdate
      else lookupTask st.tasks j :=
  lookupTask_updateTask st.tasks id j incrUpdate

theorem remove_task_of_not_found (st : TMState) (id : String)
    (h : lookupTask st.tasks id = none) :
    remove_task st id = (st, false, []) := by
  simp [remove_task, h]

theorem remove_task_tasks_of_found (st : TMState) (id : String) (task : TTSTask)
    (h : lookupTask st.tasks id = some task) :
    ((remove_task st id).1).tasks = eraseTask st.tasks id := by
  simp [remove_task, h]

theorem lookup_remove_task (st : TMState) (id j : String) :
    lookupTask ((remove_task st id).1).tasks j =
      if j = id then none else lookupTask st.tasks j := by
  cases h : lookupTask st.tasks id with
  | none =>
      rw [remove_task_of_not_found st id h]
      by_cases hj : j = id
      · rw [if_pos hj, hj, h]
      · rw [if_neg hj]
  | some task =>
      rw [remove_task_tasks_of_found st id task h, lookupTask_eraseTask]

/-- A concrete request used by the closed-form witnesses and counterexamples. -/
def sampleReq : CustomTTSRequest :=
  { text := "hello world"
    voice_mode := .predefined
    predefined_voice_id := some "default.wav"
    reference_audio_filename := none
    output_format := some "wav"
    split_text := some false
    chunk_size := some 120
    speed_factor := none }

theorem updateTask_of_lookup_none (l : List (String × TTSTask)) (id : String)
    (f : TTSTask → TTSTask) (h : lookupTask l id = none) :
    updateTask l id f = l := by
  unfold updateTask
  have hfind : l.find? (fun p => decide (p.1 = id)) = none := by
    by_contra hne
    obtain ⟨q, hq⟩ := Option.ne_none_iff_exists'.mp hne
    rw [lookupTask, hq] at h
    simp at h
  have hall : ∀ p ∈ l, ¬ p.1 = id := by
    intro p hp hpid
    exact (List.find?_eq_none.mp hfind p hp) (by simpa using hpid)
  calc l.map (fun p => if p.1 = id then (p.1, f p.2) else p)
      = l.map (fun p => p) := by
        apply List.map_congr_left
        intro p hp
        rw [if_neg (hall p hp)]
    _ = l := List.map_id l

/-- C10: `remove_task` on an id that is not in the store returns `False` and
    has no effect at all: the whole manager state (registry, running handles,
    files on disk) is returned unchanged and no removal event (cancellation,
    await, file deletion) is performed. -/
theorem remove_task_unknown_id_noop (st : TMState) (id : String)
    (h : lookupTask st.tasks id = none) :
    remove_task st id = (st, false, []) :=
  remove_task_of_not_found st id h

/-- Witness for `remove_task_unknown_id_noop` at a concrete store. -/
theorem remove_task_unknown_id_noop_witness :
    remove_task (create_task initState "a" sampleReq 0) "b" =
      (create_task initState "a" sampleReq 0, false, []) :=
  remove_task_unknown_id_noop (create_task initState "a" sampleReq 0) "b" (by decide)

/-- C5 counterexample: for an id that is not in the store,
    `update_task_progress` is indeed a no-op on the store and raises nothing,
    but it does NOT emit a logged warning: the method body is a bare
    `if task_id in self.tasks:` with no else branch (task_manager.py
    lines 148-157), so for an unknown id it emits no log entry at all.  Here
    the store mutation is the identity and the emitted log list is empty, in
    particular it contains no warning-level entry. -/
theorem unknown_id_update_emits_no_warning :
    update_task_progress initState "missing" 5 "stage" none 0 = initState ∧
    update_task_progress_logs initState "missing" 5 "stage" = [] ∧
    ((update_task_progress_logs initState "missing" 5 "stage").any
      (fun e => e.1 = LogLevel.warning)) = false := by
  refine ⟨?_, rfl, rfl⟩
  rfl

/-- C5 (amended): for every id not present in the store,
    `update_task_progress` is a no-op on the store state, emits no log entry
    at all (in particular no warning), and never raises (the embedding is a
    total function). -/
theorem update_task_progress_unknown_id_silent_noop (st : TMState) (id : String)
    (p : ℚ) (stage : String) (status : Option TaskStatus) (now : Int)
    (h : lookupTask st.tasks id = none) :
    update_task_progress st id p stage status now = st ∧
    update_task_progress_logs st id p stage = [] := by
  constructor
  · unfold update_task_progress
    rw [updateTask_of_lookup_none st.tasks id _ h]
  · unfold update_task_progress_logs
    rw [h]
    rfl

/-- Witness for `update_task_progress_unknown_id_silent_noop`. -/
theorem update_task_progress_unknown_id_silent_noop_witness :
    update_task_progress (create_task initState "a" sampleReq 0) "b" 250 "s"
        (some .completed) 3 = create_task initState "a" sampleReq 0 ∧
    update_task_progress_logs (create_task initState "a" sampleReq 0) "b" 250 "s" = [] :=
  update_task_progress_unknown_id_silent_noop (create_task initState "a" sampleReq 0)
    "b" 250 "s" (some .completed) 3 (by decide)

/-- A task record with a live execution and a result file, used by the
    removal-ordering counterexample. -/
def liveTask : TTSTask :=
  { task_id := "t1"
    status := .processing
    progress := 40
    current_stage := "Synthesizing chunk 1/2 (11 chars)"
    created_at := 0
    updated_at := 7
    request_data := sampleReq
    result_path := some "/outputs/r.wav" }

/-- Store holding `liveTask` with a not-yet-done asyncio handle and its
    result file on disk. -/
def liveState : TMState :=
  { tasks := [("t1", liveTask)]
    running := [("t1", false)]
    files := ["/outputs/r.wav"] }

/-- True iff, in an event trace, no cancellation, await or file deletion
    happens after the record has been popped — the ordering section 4.4 of the
    spec prescribes (cancel, await, delete file, and only then drop the
    record). -/
def cleanupPrecedesDrop (evs : List RemovalEvent) : Bool :=
  !((evs.dropWhile (fun e => e ≠ RemovalEvent.popRecord)).any
      (fun e => e = RemovalEvent.cancelRequest || e = RemovalEvent.awaitExit ||
        e = RemovalEvent.deleteFile))

/-- C6 counterexample: in the code the record is dropped FIRST.
    `remove_task` begins with `self.tasks.pop(task_id, None)` (task_manager.py
    lines 200-201) and only then cancels the running task, awaits it and
    unlinks the result file.  On a store with a live (not done) execution and
    an existing result file, the event trace is pop, cancel, await, delete —
    so the claimed ordering (record dropped only after cancellation completes
    and the artifact is deleted) is violated at this input. -/
theorem remove_task_pops_record_before_cancel :
    (remove_task liveState "t1").2.2 =
      [RemovalEvent.popRecord, RemovalEvent.cancelRequest, RemovalEvent.awaitExit,
        RemovalEvent.deleteFile] ∧
    cleanupPrecedesDrop (remove_task liveState "t1").2.2 = false := by
  constructor
  · rfl
  · rfl

/-- C6 (amended): for every removal of a job with a live (not done) execution
    handle, the removal path performs its steps in this order: pop the job
    record from the Store registry first (the pop itself touching no file),
    then request cancellation, then wait for the execution to exit, and only
    after that delete the result artifact on disk (when one is recorded and
    exists); removal reports success. -/
theorem remove_task_event_order (st : TMState) (id : String) (task : TTSTask)
    (ht : lookupTask st.tasks id = some task)
    (hr : lookupRunning st.running id = some false) :
    (remove_task st id).2.2 =
      RemovalEvent.popRecord :: RemovalEvent.cancelRequest ::
        RemovalEvent.awaitExit :: (fileCleanup st.files task.result_path).2 ∧
    ((fileCleanup st.files task.result_path).2 = [] ∨
      (fileCleanup st.files task.result_path).2 = [RemovalEvent.deleteFile]) ∧
    (remove_task st id).2.1 = true ∧
    ((remove_task st id).1).tasks = eraseTask st.tasks id := by
  refine ⟨?_, ?_, ?_, ?_⟩
  · simp [remove_task, ht, hr]
  · unfold fileCleanup
    cases task.result_path with
    | none => left; rfl
    | some p =>
        by_cases hp : st.files.contains p
        · right; simp only [hp, if_true]
        · left; simp only [hp, if_false, Bool.false_eq_true]
  · simp [remove_task, ht]
  · simp [remove_task, ht]

/-- Witness for `remove_task_event_order` at the concrete live store. -/
theorem remove_task_event_order_witness :
    (remove_task liveState "t1").2.2 =
      RemovalEvent.popRecord :: RemovalEvent.cancelRequest ::
        RemovalEvent.awaitExit :: (fileCleanup liveState.files liveTask.result_path).2 ∧
    ((fileCleanup liveState.files liveTask.result_path).2 = [] ∨
      (fileCleanup liveState.files liveTask.result_path).2 = [RemovalEvent.deleteFile]) ∧
    (remove_task liveState "t1").2.1 = true ∧
    ((remove_task liveState "t1").1).tasks = eraseTask liveState.tasks "t1" :=
  remove_task_event_order liveState "t1" liveTask (by decide) (by decide)

theorem lookupTask_foldl_remove (ids : List String) (st : TMState) (j : String) :
    lookupTask ((ids.foldl (fun s id => (remove_task s id).1) st)).tasks j =
      if j ∈ ids then none else lookupTask st.tasks j := by
  induction ids generalizing st with
  | nil => simp
  | cons a rest ih =>
      rw [List.foldl_cons, ih]
      by_cases hrest : j ∈ rest
      · simp [hrest]
      · rw [if_neg hrest, lookup_remove_task]
        by_cases hja : j = a <;> simp [hja, hrest, List.mem_cons]

/-- Registry keys are pairwise distinct — the dict representation invariant
    (each Python dict key occurs once). -/
def NodupKeys (l : List (String × TTSTask)) : Prop :=
  (l.map Prod.fst).Nodup

theorem lookupTask_eq_some_of_mem (l : List (String × TTSTask)) (j : String)
    (t : TTSTask) (hnd : NodupKeys l) (hmem : (j, t) ∈ l) :
    lookupTask l j = some t := by
  induction l with
  | nil => simp at hmem
  | cons p rest ih =>
      rw [lookupTask_cons]
      rcases List.mem_cons.mp hmem with heq | hrest
      · rw [← heq]
        simp
      · have hnd2 : NodupKeys rest := (List.nodup_cons.mp hnd).2
        have hnot : p.1 ∉ rest.map Prod.fst := (List.nodup_cons.mp hnd).1
        have hne : ¬ p.1 = j := by
          intro h
          exact hnot (h ▸ List.mem_map.mpr ⟨(j, t), hrest, rfl⟩)
        rw [if_neg hne]
        exact ih hnd2 hrest

theorem mem_of_lookupTask_eq_some (l : List (String × TTSTask)) (j : String)
    (t : TTSTask) (h : lookupTask l j = some t) : (j, t) ∈ l := by
  unfold lookupTask at h
  cases hf : l.find? (fun p => p.1 = j) with
  | none => rw [hf] at h; simp at h
  | some q =>
      rw [hf] at h
      have hq : q ∈ l := List.mem_of_find?_eq_some hf
      have hkey : q.1 = j := by
        have := List.find?_some hf
        simpa using this
      have hsnd : q.2 = t := by simpa using h
      have : q = (j, t) := Prod.ext hkey hsnd
      rwa [this] at hq

theorem mem_toRemove_iff (st : TMState) (now retention : Int)
    (hnd : NodupKeys st.tasks) (j : String) :
    j ∈ (st.tasks.filter
        (fun p => p.2.status.isTerminal ∧ p.2.updated_at < now - retention)).map
        (fun p => p.1) ↔
      ∃ t, lookupTask st.tasks j = some t ∧ t.status.isTerminal = true ∧
        t.updated_at < now - retention := by
  constructor
  · intro hmem
    obtain ⟨p, hp, hpj⟩ := List.mem_map.mp hmem
    have hpl : p ∈ st.tasks := List.mem_of_mem_filter hp
    refine ⟨p.2, ?_, ?_⟩
    · apply lookupTask_eq_some_of_mem st.tasks j p.2 hnd
      rw [← hpj]
      simpa using hpl
    · have := (List.mem_filter.mp hp).2
      simpa using this
  · intro hex
    obtain ⟨t, hlk, hcond⟩ := hex
    apply List.mem_map.mpr
    refine ⟨(j, t), List.mem_filter.mpr ⟨mem_of_lookupTask_eq_some st.tasks j t hlk,
      by simpa using hcond⟩, rfl⟩

/-- C8: one Reaper cycle removes exactly the jobs that are both terminal and
    strictly older than the retention cutoff; every other job record (younger
    terminal jobs, and non-terminal jobs of any age) is left in the registry
    unchanged. -/
theorem cleanup_removes_exactly_expired_terminal (st : TMState)
    (now retention : Int) (hnd : NodupKeys st.tasks) (j : String) :
    lookupTask (cleanup_old_tasks st now retention).tasks j =
      match lookupTask st.tasks j with
      | none => none
      | some t =>
          if t.status.isTerminal = true ∧ t.updated_at < now - retention then none
          else some t := by
  unfold cleanup_old_tasks
  rw [lookupTask_foldl_remove]
  cases hlk : lookupTask st.tasks j with
  | none =>
      rw [if_neg]
      intro hmem
      obtain ⟨t, hlkt, -⟩ := (mem_toRemove_iff st now retention hnd j).mp hmem
      rw [hlk] at hlkt
      exact Option.noConfusion hlkt
  | some t =>
      by_cases hcond : t.status.isTerminal = true ∧ t.updated_at < now - retention
      · rw [if_pos]
        · dsimp only
          rw [if_pos hcond]
        · exact (mem_toRemove_iff st now retention hnd j).mpr ⟨t, hlk, hcond⟩
      · rw [if_neg]
        · dsimp only
          rw [if_neg hcond]
        · intro hmem
          obtain ⟨u, hlku, hcondu⟩ := (mem_toRemove_iff st now retention hnd j).mp hmem
          rw [hlk] at hlku
          have hut : u = t := by simpa using hlku.symm
          rw [hut] at hcondu
          exact hcond hcondu

/-- Expired terminal job: terminal status, `updated_at` before the cutoff. -/
def taskA : TTSTask :=
  { liveTask with
      task_id := "A"
      status := .completed
      result_path := some "/outputs/a.wav"
      updated_at := 0 }

/-- Recent terminal job: terminal status, `updated_at` within the window. -/
def taskB : TTSTask :=
  { liveTask with
      task_id := "B"
      status := .failed
      result_path := none
      error_message := some "boom"
      updated_at := 80 }

/-- Old but non-terminal job. -/
def taskC : TTSTask :=
  { liveTask with
      task_id := "C"
      status := .processing
      result_path := none
      updated_at := 0 }

/-- Store for the Reaper witness: A expired terminal, B recent terminal,
    C old non-terminal. -/
def reaperState : TMState :=
  { tasks := [("A", taskA), ("B", taskB), ("C", taskC)] }

/-- Witness for `cleanup_removes_exactly_expired_terminal`: with `now = 100`
    and a retention window of 50, job B (terminal but recent) survives the
    cycle unchanged. -/
theorem cleanup_removes_exactly_expired_terminal_witness :
    lookupTask (cleanup_old_tasks reaperState 100 50).tasks "B" =
      (match lookupTask reaperState.tasks "B" with
      | none => none
      | some t =>
          if t.status.isTerminal = true ∧ t.updated_at < 100 - 50 then none
          else some t) :=
  cleanup_removes_exactly_expired_terminal reaperState 100 50
    (by unfold NodupKeys reaperState; decide) "B"

theorem mem_updateTask (l : List (String × TTSTask)) (id : String)
    (f : TTSTask → TTSTask) (q : String × TTSTask) (hq : q ∈ updateTask l id f) :
    ∃ p ∈ l, q.2 = f p.2 ∨ q = p := by
  unfold updateTask at hq
  obtain ⟨p, hp, hqp⟩ := List.mem_map.mp hq
  refine ⟨p, hp, ?_⟩
  by_cases h : p.1 = id
  · left
    rw [← hqp]
    simp [h]
  · right
    rw [← hqp]
    simp [h]

theorem mem_insertTask (l : List (String × TTSTask)) (id : String) (t : TTSTask)
    (q : String × TTSTask) (hq : q ∈ insertTask l id t) :
    q ∈ l ∨ q.2 = t := by
  unfold insertTask at hq
  by_cases hmem : l.any (fun p => p.1 = id)
  · rw [if_pos hmem] at hq
    obtain ⟨p, hp, hqp⟩ := List.mem_map.mp hq
    by_cases h : p.1 = id
    · right
      rw [← hqp]
      simp [h]
    · left
      rw [← hqp]
      simpa [h] using hp
  · rw [if_neg hmem] at hq
    rcases List.mem_append.mp hq with h | h
    · left; exact h
    · right
      have : q = (id, t) := by simpa using h
      rw [this]

theorem mem_remove_task_tasks (st : TMState) (id : String) (q : String × TTSTask)
    (hq : q ∈ ((remove_task st id).1).tasks) : q ∈ st.tasks := by
  cases h : lookupTask st.tasks id with
  | none =>
      rw [remove_task_of_not_found st id h] at hq
      exact hq
  | some task =>
      rw [remove_task_tasks_of_found st id task h] at hq
      exact List.mem_of_mem_filter hq

theorem mem_foldl_remove_tasks (ids : List String) (st : TMState)
    (q : String × TTSTask)
    (hq : q ∈ ((ids.foldl (fun s id => (remove_task s id).1) st)).tasks) :
    q ∈ st.tasks := by
  induction ids generalizing st with
  | nil => exact hq
  | cons a rest ih =>
      rw [List.foldl_cons] at hq
      exact mem_remove_task_tasks st a q (ih (remove_task st a).1 hq)

theorem mem_cleanup_tasks (st : TMState) (now retention : Int) (q : String × TTSTask)
    (hq : q ∈ (cleanup_old_tasks st now retention).tasks) : q ∈ st.tasks := by
  simp only [cleanup_old_tasks] at hq
  exact mem_foldl_remove_tasks _ st q hq

theorem clampProgress_bounds (p : ℚ) : 0 ≤ clampProgress p ∧ clampProgress p ≤ 100 :=
  ⟨le_min (by norm_num) (le_max_left 0 p), min_le_left _ _⟩

theorem progressUpdate_progress (p : ℚ) (stage : String) (status : Option TaskStatus)
    (now : Int) (t : TTSTask) :
    (progressUpdate p stage status now t).progress = clampProgress p := by
  cases status <;> rfl

/-- Every job record in the store has its `progress` within bounds. -/
def ProgressOK (st : TMState) : Prop :=
  ∀ p ∈ st.tasks, 0 ≤ p.2.progress ∧ p.2.progress ≤ 100

theorem progressOK_applyOp (st : TMState) (op : StoreOp) (h : ProgressOK st) :
    ProgressOK (applyOp st op) := by
  cases op with
  | create id req now =>
      intro q hq
      rcases mem_insertTask st.tasks id (freshTask id req now) q hq with hmem | heq
      · exact h q hmem
      · rw [heq]
        constructor
        · norm_num [freshTask]
        · norm_num [freshTask]
  | updateProgress id p stage status now =>
      intro q hq
      obtain ⟨r, hr, hcase⟩ :=
        mem_updateTask st.tasks id (progressUpdate p stage status now) q hq
      rcases hcase with hq2 | hq2
      · rw [hq2, progressUpdate_progress]
        exact clampProgress_bounds p
      · rw [hq2]
        exact h r hr
  | setCompleted id path now =>
      intro q hq
      obtain ⟨r, hr, hcase⟩ :=
        mem_updateTask st.tasks id (completedUpdate path now) q hq
      rcases hcase with hq2 | hq2
      · rw [hq2]
        constructor
        · norm_num [completedUpdate]
        · norm_num [completedUpdate]
      · rw [hq2]
        exact h r hr
  | setFailed id msg now =>
      intro q hq
      obtain ⟨r, hr, hcase⟩ := mem_updateTask st.tasks id (failedUpdate msg now) q hq
      rcases hcase with hq2 | hq2
      · rw [hq2]
        simpa [failedUpdate] using h r hr
      · rw [hq2]
        exact h r hr
  | setChunks id n =>
      intro q hq
      obtain ⟨r, hr, hcase⟩ := mem_updateTask st.tasks id (chunksUpdate n) q hq
      rcases hcase with hq2 | hq2
      · rw [hq2]
        simpa [chunksUpdate] using h r hr
      · rw [hq2]
        exact h r hr
  | incrChunks id =>
      intro q hq
      obtain ⟨r, hr, hcase⟩ := mem_updateTask st.tasks id incrUpdate q hq
      rcases hcase with hq2 | hq2
      · rw [hq2]
        simpa [incrUpdate] using h r hr
      · rw [hq2]
        exact h r hr
  | remove id =>
      intro q hq
      exact h q (mem_remove_task_tasks st id q hq)
  | cleanup now retention =>
      intro q hq
      exact h q (mem_cleanup_tasks st now retention q hq)

theorem progressOK_applyOps (ops : List StoreOp) (st : TMState) (h : ProgressOK st) :
    ProgressOK (applyOps ops st) := by
  induction ops generalizing st with
  | nil => exact h
  | cons op rest ih =>
      rw [applyOps, List.foldl_cons]
      exact ih (applyOp st op) (progressOK_applyOp st op h)

/-- C4: after every sequence of store operations starting from the empty
    manager — creations, progress updates with arbitrary (also out-of-range)
    values, completions, failures, chunk-counter updates, removals, Reaper
    cycles — every stored progress value lies within [0, 100]; moreover
    `create_task` initialises progress to 0, `update_task_progress` clamps
    its argument into [0, 100], and `set_task_completed` sets it to
    exactly 100. -/
theorem progress_always_within_range (ops : List StoreOp) (j : String) (t : TTSTask)
    (h : lookupTask (applyOps ops initState).tasks j = some t) :
    (0 ≤ t.progress ∧ t.progress ≤ 100) ∧
    (∀ id req now2, (freshTask id req now2).progress = 0) ∧
    (∀ q, 0 ≤ clampProgress q ∧ clampProgress q ≤ 100) ∧
    (∀ path now2 u, (completedUpdate path now2 u).progress = 100) := by
  refine ⟨?_, fun id req now2 => rfl, fun q => clampProgress_bounds q,
    fun path now2 u => rfl⟩
  have hmem := mem_of_lookupTask_eq_some _ _ _ h
  have hinit : ProgressOK initState := by
    intro q hq
    simp [initState] at hq
  exact progressOK_applyOps ops initState hinit (j, t) hmem

/-- Witness for `progress_always_within_range`: create then update with the
    out-of-range value 250; the stored value is the clamp, inside [0, 100]. -/
theorem progress_always_within_range_witness :
    (0 ≤ (progressUpdate 250 "s" none 1 (freshTask "a" sampleReq 0)).progress ∧
      (progressUpdate 250 "s" none 1 (freshTask "a" sampleReq 0)).progress ≤ 100) ∧
    (∀ id req now2, (freshTask id req now2).progress = 0) ∧
    (∀ q, 0 ≤ clampProgress q ∧ clampProgress q ≤ 100) ∧
    (∀ path now2 u, (completedUpdate path now2 u).progress = 100) :=
  progress_always_within_range
    [.create "a" sampleReq 0, .updateProgress "a" 250 "s" none 1] "a"
    (progressUpdate 250 "s" none 1 (freshTask "a" sampleReq 0)) (by decide)

/-- Field discipline the spec asserts for terminal and non-terminal states:
    a terminal record carries exactly one of result_path / error_message, a
    non-terminal record neither. -/
def terminalFieldsOK (t : TTSTask) : Prop :=
  (t.status.isTerminal = true →
      (t.result_path ≠ none ∧ t.error_message = none) ∨
      (t.result_path = none ∧ t.error_message ≠ none)) ∧
  (t.status.isTerminal = false → t.result_path = none ∧ t.error_message = none)

instance (t : TTSTask) : Decidable (terminalFieldsOK t) := by
  unfold terminalFieldsOK
  infer_instance

/-- A store operation is well-behaved in a state when it follows the driver
    discipline: creations use fresh ids, a status passed to update_progress is
    only "processing" and only for a job not yet terminal, and terminal marks
    are applied only to jobs not yet terminal. -/
def opOK (st : TMState) : StoreOp → Bool
  | .create id _ _ => (lookupTask st.tasks id).isNone
  | .updateProgress id _ _ status _ =>
      match status with
      | none => true
      | some s =>
          decide (s = TaskStatus.processing) &&
            (match lookupTask st.tasks id with
             | some t => !t.status.isTerminal
             | none => true)
  | .setCompleted id _ _ =>
      (match lookupTask st.tasks id with
       | some t => !t.status.isTerminal
       | none => true)
  | .setFailed id _ _ =>
      (match lookupTask st.tasks id with
       | some t => !t.status.isTerminal
       | none => true)
  | .setChunks _ _ => true
  | .incrChunks _ => true
  | .remove _ => true
  | .cleanup _ _ => true

/-- A sequence of store operations is well-behaved from a state when each
    operation is well-behaved in the state it actually executes in. -/
def goodSeq (st : TMState) : List StoreOp → Bool
  | [] => true
  | op :: ops => opOK st op && goodSeq (applyOp st op) ops

theorem key_ne_of_lookup_none (l : List (String × TTSTask)) (id : String)
    (h : lookupTask l id = none) : ∀ p ∈ l, ¬ p.1 = id := by
  intro p hp hpid
  have hfind : l.find? (fun q => q.1 = id) = none := by
    by_contra hne
    obtain ⟨q, hq⟩ := Option.ne_none_iff_exists'.mp hne
    rw [lookupTask, hq] at h
    simp at h
  exact (List.find?_eq_none.mp hfind p hp) (by simpa using hpid)

theorem insertTask_of_lookup_none (l : List (String × TTSTask)) (id : String)
    (t : TTSTask) (h : lookupTask l id = none) :
    insertTask l id t = l ++ [(id, t)] := by
  unfold insertTask
  rw [if_neg]
  intro hany
  have := lookupTask_isSome_of_any l id hany
  rw [h] at this
  simp at this

theorem keys_updateTask (l : List (String × TTSTask)) (id : String)
    (f : TTSTask → TTSTask) :
    (updateTask l id f).map Prod.fst = l.map Prod.fst := by
  unfold updateTask
  rw [List.map_map]
  apply List.map_congr_left
  intro p _
  by_cases h : p.1 = id <;> simp [h]

theorem nodupKeys_eraseTask (l : List (String × TTSTask)) (id : String)
    (h : NodupKeys l) : NodupKeys (eraseTask l id) :=
  List.Nodup.sublist (List.Sublist.map Prod.fst (List.filter_sublist l)) h

theorem nodupKeys_remove_task (st : TMState) (id : String)
    (h : NodupKeys st.tasks) : NodupKeys ((remove_task st id).1).tasks := by
  cases hlk : lookupTask st.tasks id with
  | none => rw [remove_task_of_not_found st id hlk]; exact h
  | some task =>
      rw [remove_task_tasks_of_found st id task hlk]
      exact nodupKeys_eraseTask st.tasks id h

theorem nodupKeys_applyOp (st : TMState) (op : StoreOp) (h : NodupKeys st.tasks)
    (hok : opOK st op = true) : NodupKeys ((applyOp st op).tasks) := by
  cases op with
  | create id req now =>
      have hnone : lookupTask st.tasks id = none := by
        simpa [opOK, Option.isNone_iff_eq_none] using hok
      show NodupKeys (insertTask st.tasks id (freshTask id req now))
      rw [insertTask_of_lookup_none st.tasks id _ hnone]
      unfold NodupKeys
      rw [List.map_append]
      apply List.Nodup.append h (List.nodup_singleton id)
      intro a ha hamem
      obtain ⟨p, hp, hpa⟩ := List.mem_map.mp ha
      have : a = id := by simpa using hamem
      exact key_ne_of_lookup_none st.tasks id hnone p hp (by rw [hpa, this])
  | updateProgress id p stage status now =>
      show NodupKeys (updateTask st.tasks id _)
      unfold NodupKeys
      rw [keys_updateTask]
      exact h
  | setCompleted id path now =>
      show NodupKeys (updateTask st.tasks id _)
      unfold NodupKeys
      rw [keys_updateTask]
      exact h
  | setFailed id msg now =>
      show NodupKeys (updateTask st.tasks id _)
      unfold NodupKeys
      rw [keys_updateTask]
      exact h
  | setChunks id n =>
      show NodupKeys (updateTask st.tasks id _)
      unfold NodupKeys
      rw [keys_updateTask]
      exact h
  | incrChunks id =>
      show NodupKeys (updateTask st.tasks id _)
      unfold NodupKeys
      rw [keys_updateTask]
      exact h
  | remove id => exact nodupKeys_remove_task st id h
  | cleanup now retention =>
      show NodupKeys (cleanup_old_tasks st now retention).tasks
      simp only [cleanup_old_tasks]
      generalize (st.tasks.filter
        (fun p => p.2.status.isTerminal ∧ p.2.updated_at < now - retention)).map
        (fun p => p.1) = ids
      induction ids generalizing st with
      | nil => exact h
      | cons a rest ih =>
          rw [List.foldl_cons]
          exact ih (remove_task st a).1 (nodupKeys_remove_task st a h)
            (by simp [opOK])

theorem mem_updateTask_keyed (l : List (String × TTSTask)) (id : String)
    (f : TTSTask → TTSTask) (q : String × TTSTask) (hq : q ∈ updateTask l id f) :
    (∃ r ∈ l, r.1 = id ∧ q = (r.1, f r.2)) ∨ (q ∈ l ∧ ¬ q.1 = id) := by
  unfold updateTask at hq
  obtain ⟨r, hr, hqr⟩ := List.mem_map.mp hq
  by_cases h : r.1 = id
  · left
    refine ⟨r, hr, h, ?_⟩
    rw [← hqr]
    simp [h]
  · right
    rw [← hqr, if_neg h]
    exact ⟨hr, h⟩

theorem terminalFieldsOK_congr (t u : TTSTask) (hs : u.status = t.status)
    (hr : u.result_path = t.result_path) (he : u.error_message = t.error_message)
    (h : terminalFieldsOK t) : terminalFieldsOK u := by
  unfold terminalFieldsOK at h ⊢
  rw [hs, hr, he]
  exact h

theorem progressUpdate_result (p : ℚ) (stage : String) (status : Option TaskStatus)
    (now : Int) (t : TTSTask) :
    (progressUpdate p stage status now t).result_path = t.result_path := by
  cases status <;> rfl

theorem progressUpdate_error (p : ℚ) (stage : String) (status : Option TaskStatus)
    (now : Int) (t : TTSTask) :
    (progressUpdate p stage status now t).error_message = t.error_message := by
  cases status <;> rfl

theorem progressUpdate_chunks (p : ℚ) (stage : String) (status : Option TaskStatus)
    (now : Int) (t : TTSTask) :
    (progressUpdate p stage status now t).total_chunks = t.total_chunks ∧
    (progressUpdate p stage status now t).completed_chunks = t.completed_chunks := by
  cases status <;> exact ⟨rfl, rfl⟩

/-- Every record in the store respects the terminal-state field discipline. -/
def AllFieldsOK (st : TMState) : Prop :=
  ∀ p ∈ st.tasks, terminalFieldsOK p.2

theorem allFieldsOK_applyOp (st : TMState) (op : StoreOp)
    (hnd : NodupKeys st.tasks) (h : AllFieldsOK st) (hok : opOK st op = true) :
    AllFieldsOK (applyOp st op) := by
  cases op with
  | create id req now =>
      intro q hq
      rcases mem_insertTask st.tasks id (freshTask id req now) q hq with hmem | heq
      · exact h q hmem
      · rw [heq]
        refine ⟨fun habs => ?_, fun _ => ⟨rfl, rfl⟩⟩
        simp [freshTask, TaskStatus.isTerminal] at habs
  | updateProgress id p stage status now =>
      intro q hq
      rcases mem_updateTask_keyed st.tasks id (progressUpdate p stage status now) q hq
        with ⟨r, hr, hrid, hq2⟩ | ⟨hmem, -⟩
      · cases status with
        | none =>
            rw [hq2]
            exact terminalFieldsOK_congr r.2 _ rfl rfl rfl (h r hr)
        | some s =>
            have hlk : lookupTask st.tasks id = some r.2 := by
              apply lookupTask_eq_some_of_mem st.tasks id r.2 hnd
              rw [← hrid]
              simpa using hr
            have hs : s = TaskStatus.processing := by
              simp only [opOK, hlk, Bool.and_eq_true, decide_eq_true_eq] at hok
              exact hok.1
            have hnt : r.2.status.isTerminal = false := by
              simp only [opOK, hlk, Bool.and_eq_true] at hok
              simpa using hok.2
            have hfields := (h r hr).2 hnt
            rw [hq2]
            constructor
            · intro habs
              rw [show (progressUpdate p stage (some s) now r.2).status = s from rfl,
                hs] at habs
              simp [TaskStatus.isTerminal] at habs
            · intro _
              rw [progressUpdate_result, progressUpdate_error]
              exact hfields
      · exact h q hmem
  | setCompleted id path now =>
      intro q hq
      rcases mem_updateTask_keyed st.tasks id (completedUpdate path now) q hq
        with ⟨r, hr, hrid, hq2⟩ | ⟨hmem, -⟩
      · have hlk : lookupTask st.tasks id = some r.2 := by
          apply lookupTask_eq_some_of_mem st.tasks id r.2 hnd
          rw [← hrid]
          simpa using hr
        have hnt : r.2.status.isTerminal = false := by
          simp only [opOK, hlk] at hok
          simpa using hok
        have hfields := (h r hr).2 hnt
        rw [hq2]
        refine ⟨fun _ => Or.inl ⟨?_, ?_⟩, fun habs => ?_⟩
        · simp [completedUpdate]
        · show (completedUpdate path now r.2).error_message = none
          simpa [completedUpdate] using hfields.2
        · simp [completedUpdate, TaskStatus.isTerminal] at habs
      · exact h q hmem
  | setFailed id msg now =>
      intro q hq
      rcases mem_updateTask_keyed st.tasks id (failedUpdate msg now) q hq
        with ⟨r, hr, hrid, hq2⟩ | ⟨hmem, -⟩
      · have hlk : lookupTask st.tasks id = some r.2 := by
          apply lookupTask_eq_some_of_mem st.tasks id r.2 hnd
          rw [← hrid]
          simpa using hr
        have hnt : r.2.status.isTerminal = false := by
          simp only [opOK, hlk] at hok
          simpa using hok
        have hfields := (h r hr).2 hnt
        rw [hq2]
        refine ⟨fun _ => Or.inr ⟨?_, ?_⟩, fun habs => ?_⟩
        · show (failedUpdate msg now r.2).result_path = none
          simpa [failedUpdate] using hfields.1
        · simp [failedUpdate]
        · simp [failedUpdate, TaskStatus.isTerminal] at habs
      · exact h q hmem
  | setChunks id n =>
      intro q hq
      rcases mem_updateTask_keyed st.tasks id (chunksUpdate n) q hq
        with ⟨r, hr, hrid, hq2⟩ | ⟨hmem, -⟩
      · rw [hq2]
        exact terminalFieldsOK_congr r.2 _ rfl rfl rfl (h r hr)
      · exact h q hmem
  | incrChunks id =>
      intro q hq
      rcases mem_updateTask_keyed st.tasks id incrUpdate q hq
        with ⟨r, hr, hrid, hq2⟩ | ⟨hmem, -⟩
      · rw [hq2]
        exact terminalFieldsOK_congr r.2 _ rfl rfl rfl (h r hr)
      · exact h q hmem
  | remove id =>
      intro q hq
      exact h q (mem_remove_task_tasks st id q hq)
  | cleanup now retention =>
      intro q hq
      exact h q (mem_cleanup_tasks st now retention q hq)

theorem storeInv_applyOps (ops : List StoreOp) :
    ∀ st : TMState, NodupKeys st.tasks → AllFieldsOK st → goodSeq st ops = true →
      NodupKeys (applyOps ops st).tasks ∧ AllFieldsOK (applyOps ops st) := by
  induction ops with
  | nil => intro st hnd h _; exact ⟨hnd, h⟩
  | cons op rest ih =>
      intro st hnd h hgood
      rw [goodSeq, Bool.and_eq_true] at hgood
      rw [applyOps, List.foldl_cons]
      exact ih (applyOp st op) (nodupKeys_applyOp st op hnd hgood.1)
        (allFieldsOK_applyOp st op hnd h hgood.1) hgood.2

/-- Store reached by creating a job and then calling `update_task_progress`
    with the status argument "completed". -/
def c2State : TMState :=
  applyOps [.create "a" sampleReq 0, .updateProgress "a" 0 "x" (some .completed) 1]
    initState

/-- C2 counterexample: the store operations do not enforce the terminal-field
    invariant.  `update_task_progress` overwrites `status` with whatever
    status it is passed (task_manager.py lines 154-155) without touching
    `result_path` or `error_message`, so after
    `update_task_progress(id, 0, "x", "completed")` the job is terminal with
    NEITHER result_path NOR error_message set — the claimed invariant fails
    after this sequence of store operations. -/
theorem update_progress_breaks_terminal_field_invariant :
    ((lookupTask c2State.tasks "a").map
        (fun t => (t.status.isTerminal, t.result_path, t.error_message))) =
      some (true, none, none) ∧
    ¬ (∀ j t, lookupTask c2State.tasks j = some t → terminalFieldsOK t) := by
  constructor
  · decide
  · intro hall
    have h := hall "a" (progressUpdate 0 "x" (some .completed) 1
      (freshTask "a" sampleReq 0)) (by decide)
    have habs : ¬ terminalFieldsOK (progressUpdate 0 "x" (some .completed) 1
      (freshTask "a" sampleReq 0)) := by decide
    exact habs h

/-- C2 (amended): the terminal-field invariant — a terminal job carries
    exactly one of result_path / error_message and a non-terminal job
    neither — holds for every job after every WELL-BEHAVED sequence of store
    operations from the empty store: sequences in which creations use fresh
    ids, update_progress passes a status only to move a non-terminal job to
    "processing", and mark_completed / mark_failed are applied only to jobs
    not yet terminal (the driver's discipline).  The store operations
    themselves do not enforce this discipline. -/
theorem terminal_fields_invariant (ops : List StoreOp) (j : String) (t : TTSTask)
    (hgood : goodSeq initState ops = true)
    (hl : lookupTask (applyOps ops initState).tasks j = some t) :
    (t.status.isTerminal = true →
        (t.result_path ≠ none ∧ t.error_message = none) ∨
        (t.result_path = none ∧ t.error_message ≠ none)) ∧
    (t.status.isTerminal = false →
        t.result_path = none ∧ t.error_message = none) := by
  have hinv := storeInv_applyOps ops initState (by simp [initState, NodupKeys])
    (by intro q hq; simp [initState] at hq) hgood
  exact hinv.2 (j, t) (mem_of_lookupTask_eq_some _ _ _ hl)

/-- The record produced by create, update-to-processing, complete. -/
def c2WitnessTask : TTSTask :=
  completedUpdate "/outputs/r.wav" 2
    (progressUpdate 0 "go" (some .processing) 1 (freshTask "a" sampleReq 0))

/-- Witness for `terminal_fields_invariant`: create, move to processing,
    complete — the completed job has result_path set and error_message
    unset. -/
theorem terminal_fields_invariant_witness :
    (c2WitnessTask.status.isTerminal = true →
        (c2WitnessTask.result_path ≠ none ∧ c2WitnessTask.error_message = none) ∨
        (c2WitnessTask.result_path = none ∧ c2WitnessTask.error_message ≠ none)) ∧
    (c2WitnessTask.status.isTerminal = false →
        c2WitnessTask.result_path = none ∧ c2WitnessTask.error_message = none) :=
  terminal_fields_invariant
    [.create "a" sampleReq 0, .updateProgress "a" 0 "go" (some .processing) 1,
      .setCompleted "a" "/outputs/r.wav" 2] "a" c2WitnessTask
    (by decide) (by decide)

/-- Store holding a completed job "a". -/
def c3State : TMState :=
  applyOps [.create "a" sampleReq 0, .setCompleted "a" "/outputs/r.wav" 1] initState

/-- C3 counterexample: the store does not enforce the state machine.
    `update_task_progress` overwrites `status` unconditionally with the status
    it is passed (task_manager.py lines 154-155), so a single store operation
    can move a COMPLETED (terminal) job back to QUEUED — out of a terminal
    state and backwards along the state machine. -/
theorem update_progress_escapes_terminal_state :
    ((lookupTask c3State.tasks "a").map TTSTask.status = some TaskStatus.completed) ∧
    ((lookupTask (applyOp c3State
        (.updateProgress "a" 50 "restart" (some .queued) 2)).tasks "a").map
        TTSTask.status = some TaskStatus.queued) ∧
    TaskStatus.completed.isTerminal = true ∧
    TaskStatus.queued.rank < TaskStatus.completed.rank := by
  refine ⟨by decide, by decide, rfl, by decide⟩

theorem statusRank_le_two (s : TaskStatus) : s.rank ≤ 2 := by
  cases s <;> simp [TaskStatus.rank]

theorem rank_le_one_of_not_terminal (s : TaskStatus) (h : s.isTerminal = false) :
    s.rank ≤ 1 := by
  cases s
  · decide
  · decide
  · exact absurd h (by decide)
  · exact absurd h (by decide)
  · exact absurd h (by decide)

/-- C3 (amended): a single WELL-BEHAVED store operation (creations with fresh
    ids; update_progress passing a status only to move a non-terminal job to
    "processing"; terminal marks only on non-terminal jobs; chunk-counter
    updates; removals; Reaper cycles) never moves a surviving job backwards
    along the state machine and never moves it out of a terminal state.  The
    store operations themselves do not enforce this: update_progress with an
    explicit status overwrites unconditionally (see the counterexample). -/
theorem status_step_monotone (st : TMState) (op : StoreOp) (j : String)
    (t u : TTSTask) (hok : opOK st op = true)
    (hb : lookupTask st.tasks j = some t)
    (ha : lookupTask (applyOp st op).tasks j = some u) :
    t.status.rank ≤ u.status.rank ∧
    (t.status.isTerminal = true → u.status = t.status) := by
  cases op with
  | create id req now =>
      have hnone : lookupTask st.tasks id = none := by
        simpa [opOK, Option.isNone_iff_eq_none] using hok
      rw [show applyOp st (.create id req now) = create_task st id req now from rfl,
        lookup_create_task] at ha
      by_cases hj : j = id
      · rw [hj, hnone] at hb
        exact Option.noConfusion hb
      · rw [if_neg hj, hb] at ha
        have : t = u := Option.some.inj ha
        rw [this]
        exact ⟨le_refl _, fun _ => rfl⟩
  | updateProgress id p stage status now =>
      rw [show applyOp st (.updateProgress id p stage status now) =
        update_task_progress st id p stage status now from rfl,
        lookup_update_task_progress] at ha
      by_cases hj : j = id
      · rw [if_pos hj, hb] at ha
        have hu : u = progressUpdate p stage status now t :=
          (Option.some.inj ha).symm
        cases status with
        | none =>
            have : u.status = t.status := by rw [hu]; rfl
            rw [this]
            exact ⟨le_refl _, fun _ => rfl⟩
        | some s =>
            have hs : s = TaskStatus.processing := by
              rw [hj] at hb
              simp only [opOK, hb, Bool.and_eq_true, decide_eq_true_eq] at hok
              exact hok.1
            have hnt : t.status.isTerminal = false := by
              rw [hj] at hb
              simp only [opOK, hb, Bool.and_eq_true] at hok
              simpa using hok.2
            have hus : u.status = TaskStatus.processing := by
              rw [hu, hs]; rfl
            constructor
            · rw [hus]
              simpa [TaskStatus.rank] using rank_le_one_of_not_terminal t.status hnt
            · intro hterm
              rw [hterm] at hnt
              exact Bool.noConfusion hnt
      · rw [if_neg hj, hb] at ha
        have : t = u := Option.some.inj ha
        rw [this]
        exact ⟨le_refl _, fun _ => rfl⟩
  | setCompleted id path now =>
      rw [show applyOp st (.setCompleted id path now) =
        set_task_completed st id path now from rfl,
        lookup_set_task_completed] at ha
      by_cases hj : j = id
      · rw [if_pos hj, hb] at ha
        have hu : u = completedUpdate path now t := (Option.some.inj ha).symm
        have hnt : t.status.isTerminal = false := by
          rw [hj] at hb
          simp only [opOK, hb] at hok
          simpa using hok
        have hus : u.status = TaskStatus.completed := by rw [hu]; rfl
        constructor
        · rw [hus]
          exact statusRank_le_two t.status
        · intro hterm
          rw [hterm] at hnt
          exact Bool.noConfusion hnt
      · rw [if_neg hj, hb] at ha
        have : t = u := Option.some.inj ha
        rw [this]
        exact ⟨le_refl _, fun _ => rfl⟩
  | setFailed id msg now =>
      rw [show applyOp st (.setFailed id msg now) =
        set_task_failed st id msg now from rfl,
        lookup_set_task_failed] at ha
      by_cases hj : j = id
      · rw [if_pos hj, hb] at ha
        have hu : u = failedUpdate msg now t := (Option.some.inj ha).symm
        have hnt : t.status.isTerminal = false := by
          rw [hj] at hb
          simp only [opOK, hb] at hok
          simpa using hok
        have hus : u.status = TaskStatus.failed := by rw [hu]; rfl
        constructor
        · rw [hus]
          exact statusRank_le_two t.status
        · intro hterm
          rw [hterm] at hnt
          exact Bool.noConfusion hnt
      · rw [if_neg hj, hb] at ha
        have : t = u := Option.some.inj ha
        rw [this]
        exact ⟨le_refl _, fun _ => rfl⟩
  | setChunks id n =>
      rw [show applyOp st (.setChunks id n) = set_task_chunks st id n from rfl,
        lookup_set_task_chunks] at ha
      by_cases hj : j = id
      · rw [if_pos hj, hb] at ha
        have hu : u = chunksUpdate n t := (Option.some.inj ha).symm
        have : u.status = t.status := by rw [hu]; rfl
        rw [this]
        exact ⟨le_refl _, fun _ => rfl⟩
      · rw [if_neg hj, hb] at ha
        have : t = u := Option.some.inj ha
        rw [this]
        exact ⟨le_refl _, fun _ => rfl⟩
  | incrChunks id =>
      rw [show applyOp st (.incrChunks id) = increment_completed_chunks st id from rfl,
        lookup_increment_completed_chunks] at ha
      by_cases hj : j = id
      · rw [if_pos hj, hb] at ha
        have hu : u = incrUpdate t := (Option.some.inj ha).symm
        have : u.status = t.status := by rw [hu]; rfl
        rw [this]
        exact ⟨le_refl _, fun _ => rfl⟩
      · rw [if_neg hj, hb] at ha
        have : t = u := Option.some.inj ha
        rw [this]
        exact ⟨le_refl _, fun _ => rfl⟩
  | remove id =>
      rw [show applyOp st (.remove id) = (remove_task st id).1 from rfl,
        lookup_remove_task] at ha
      by_cases hj : j = id
      · rw [if_pos hj] at ha
        exact Option.noConfusion ha
      · rw [if_neg hj, hb] at ha
        have : t = u := Option.some.inj ha
        rw [this]
        exact ⟨le_refl _, fun _ => rfl⟩
  | cleanup now retention =>
      rw [show applyOp st (.cleanup now retention) =
        cleanup_old_tasks st now retention from rfl] at ha
      simp only [cleanup_old_tasks] at ha
      rw [lookupTask_foldl_remove] at ha
      split at ha
      · exact Option.noConfusion ha
      · rw [hb] at ha
        have : t = u := Option.some.inj ha
        rw [this]
        exact ⟨le_refl _, fun _ => rfl⟩

/-- Witness for `status_step_monotone`: completing a processing job moves it
    forward, not backwards. -/
theorem status_step_monotone_witness :
    (progressUpdate 0 "go" (some .processing) 1
        (freshTask "a" sampleReq 0)).status.rank ≤ c2WitnessTask.status.rank ∧
    ((progressUpdate 0 "go" (some .processing) 1
        (freshTask "a" sampleReq 0)).status.isTerminal = true →
      c2WitnessTask.status =
        (progressUpdate 0 "go" (some .processing) 1
          (freshTask "a" sampleReq 0)).status) :=
  status_step_monotone
    (applyOps [.create "a" sampleReq 0,
      .updateProgress "a" 0 "go" (some .processing) 1] initState)
    (.setCompleted "a" "/outputs/r.wav" 2) "a"
    (progressUpdate 0 "go" (some .processing) 1 (freshTask "a" sampleReq 0))
    c2WitnessTask (by decide) (by decide) (by decide)

/-- C7: when the engine precondition fails (model not loaded), the driver
    fails the job before any chunk work: the job ends failed, with the
    non-empty message raised at async_tts.py line 56, with `total_chunks`
    still 0 (set_task_chunks is never reached), and the driver returns no
    path. -/
theorem engine_precondition_failure_fails_job (env : Env) (tid : String)
    (req : CustomTTSRequest) (now : Int) (st : TMState) (t0 : TTSTask)
    (hm : env.model_loaded = false)
    (ht : lookupTask st.tasks tid = some t0)
    (htc : t0.total_chunks = 0) :
    ∃ u, lookupTask ((generate_tts_async env tid req now st).1).tasks tid = some u ∧
      u.status = .failed ∧
      u.error_message = some "TTS engine model is not currently loaded or available" ∧
      "TTS engine model is not currently loaded or available" ≠ "" ∧
      u.total_chunks = 0 ∧
      (generate_tts_async env tid req now st).2 = none := by
  have hbody : generate_tts_body env tid req now st =
      (update_task_progress st tid 0 "Starting TTS generation"
        (some TaskStatus.processing) now,
       Except.error "TTS engine model is not currently loaded or available") := by
    unfold generate_tts_body
    rw [if_pos hm]
  have hrun : generate_tts_async env tid req now st =
      (set_task_failed
        (update_task_progress st tid 0 "Starting TTS generation"
          (some TaskStatus.processing) now)
        tid "TTS engine model is not currently loaded or available" now, none) := by
    unfold generate_tts_async
    rw [hbody]
  refine ⟨failedUpdate "TTS engine model is not currently loaded or available" now
    (progressUpdate 0 "Starting TTS generation" (some TaskStatus.processing) now t0),
    ?_, rfl, rfl, by decide, ?_, by rw [hrun]⟩
  · rw [hrun]
    show lookupTask (set_task_failed _ tid _ now).tasks tid = _
    rw [lookup_set_task_failed, if_pos rfl, lookup_update_task_progress, if_pos rfl,
      ht]
    rfl
  · show (failedUpdate _ now (progressUpdate 0 _ (some TaskStatus.processing) now
      t0)).total_chunks = 0
    rw [show (failedUpdate "TTS engine model is not currently loaded or available"
      now (progressUpdate 0 "Starting TTS generation" (some TaskStatus.processing)
      now t0)).total_chunks = t0.total_chunks from rfl]
    exact htc

/-- Environment whose engine model is not loaded. -/
def envDown : Env :=
  { model_loaded := false
    predefined_voices_path := "/voices"
    reference_audio_path := "/refs"
    is_file := fun _ => true
    chunk_text := fun _ _ => []
    synth_result := fun _ => none
    concat_ok := true
    concat_msg := ""
    encode_len := some 1000
    save_path := "/outputs/x.wav"
    default_output_format := "wav" }

/-- Witness for `engine_precondition_failure_fails_job` on a freshly created
    job. -/
theorem engine_precondition_failure_fails_job_witness :
    ∃ u, lookupTask ((generate_tts_async envDown "a" sampleReq 1
        (create_task initState "a" sampleReq 0)).1).tasks "a" = some u ∧
      u.status = .failed ∧
      u.error_message = some "TTS engine model is not currently loaded or available" ∧
      "TTS engine model is not currently loaded or available" ≠ "" ∧
      u.total_chunks = 0 ∧
      (generate_tts_async envDown "a" sampleReq 1
        (create_task initState "a" sampleReq 0)).2 = none :=
  engine_precondition_failure_fails_job envDown "a" sampleReq 1
    (create_task initState "a" sampleReq 0) (freshTask "a" sampleReq 0)
    rfl (by decide) rfl

theorem synthLoop_success (env : Env) (tid : String) (n : Nat) (now : Int) :
    ∀ (cs : List String) (st : TMState) (k : Nat) (t : TTSTask),
      (∀ i, i < cs.length → (env.synth_result (k + i)).isSome = true) →
      lookupTask st.tasks tid = some t →
      ∃ st2 u, synthLoop env tid n now st cs k = (st2, Except.ok ()) ∧
        lookupTask st2.tasks tid = some u ∧
        u.status = t.status ∧
        u.result_path = t.result_path ∧
        u.error_message = t.error_message ∧
        u.total_chunks = t.total_chunks ∧
        u.completed_chunks = t.completed_chunks + cs.length := by
  intro cs
  induction cs with
  | nil =>
      intro st k t hs hl
      exact ⟨st, t, rfl, hl, rfl, rfl, rfl, rfl, by simp⟩
  | cons c rest ih =>
      intro st k t hs hl
      have h0 : (env.synth_result k).isSome = true := by
        have := hs 0 (by simp)
        simpa using this
      obtain ⟨sr, hsr⟩ := Option.isSome_iff_exists.mp h0
      have hl1 : lookupTask (update_task_progress st tid (chunkProgress k n)
          (s!"Synthesizing chunk {k+1}/{n} ({c.length} chars)") none now).tasks tid =
          some (progressUpdate (chunkProgress k n)
            (s!"Synthesizing chunk {k+1}/{n} ({c.length} chars)") none now t) := by
        rw [lookup_update_task_progress, if_pos rfl, hl]
        rfl
      have hl2 : lookupTask (increment_completed_chunks
          (update_task_progress st tid (chunkProgress k n)
            (s!"Synthesizing chunk {k+1}/{n} ({c.length} chars)") none now)
          tid).tasks tid =
          some (incrUpdate (progressUpdate (chunkProgress k n)
            (s!"Synthesizing chunk {k+1}/{n} ({c.length} chars)") none now t)) := by
        rw [lookup_increment_completed_chunks, if_pos rfl, hl1]
        rfl
      have hs2 : ∀ i, i < rest.length →
          (env.synth_result (k + 1 + i)).isSome = true := by
        intro i hi
        have h2 := hs (i + 1) (by simpa using Nat.succ_lt_succ hi)
        rw [show k + (i + 1) = k + 1 + i by omega] at h2
        exact h2
      obtain ⟨st3, u, heq, hlu, hstat, hres, herr, htot, hcomp⟩ :=
        ih (increment_completed_chunks (update_task_progress st tid
          (chunkProgress k n) (s!"Synthesizing chunk {k+1}/{n} ({c.length} chars)")
          none now) tid) (k + 1)
          (incrUpdate (progressUpdate (chunkProgress k n)
            (s!"Synthesizing chunk {k+1}/{n} ({c.length} chars)") none now t))
          hs2 hl2
      refine ⟨st3, u, ?_, hlu, hstat, hres, herr, htot, ?_⟩
      · show synthLoop env tid n now st (c :: rest) k = (st3, Except.ok ())
        rw [synthLoop, hsr]
        exact heq
      · rw [hcomp]
        show (incrUpdate (progressUpdate (chunkProgress k n) _ none now
          t)).completed_chunks + rest.length = t.completed_chunks + (c :: rest).length
        rw [show (incrUpdate (progressUpdate (chunkProgress k n)
          (s!"Synthesizing chunk {k+1}/{n} ({c.length} chars)") none now
          t)).completed_chunks = t.completed_chunks + 1 from rfl]
        show t.completed_chunks + 1 + rest.length = t.completed_chunks + (rest.length + 1)
        omega

theorem generate_tts_body_success (env : Env) (tid : String)
    (req : CustomTTSRequest) (now : Int) (st : TMState) (t0 : TTSTask) (vp : String)
    (elen : Nat)
    (hm : env.model_loaded = true)
    (hv : validate_voice_config env req = Except.ok vp)
    (hc : process_text_chunks env req ≠ [])
    (hs : ∀ i, i < (process_text_chunks env req).length →
      (env.synth_result i).isSome = true)
    (hcat : env.concat_ok = true)
    (henc : env.encode_len = some elen)
    (hlen : 100 ≤ elen)
    (ht : lookupTask st.tasks tid = some t0) :
    ∃ st2 u, generate_tts_body env tid req now st = (st2, Except.ok env.save_path) ∧
      lookupTask st2.tasks tid = some u ∧
      u.status = TaskStatus.processing ∧
      u.result_path = t0.result_path ∧
      u.error_message = t0.error_message ∧
      u.total_chunks = (process_text_chunks env req).length ∧
      u.completed_chunks = t0.completed_chunks +
        (process_text_chunks env req).length := by
  have hl1 : lookupTask (update_task_progress st tid 0 "Starting TTS generation"
      (some TaskStatus.processing) now).tasks tid =
      some (progressUpdate 0 "Starting TTS generation" (some TaskStatus.processing)
        now t0) := by
    rw [lookup_update_task_progress, if_pos rfl, ht]; rfl
  have hl2 : lookupTask (update_task_progress (update_task_progress st tid 0
      "Starting TTS generation" (some TaskStatus.processing) now) tid 2
      "Model validation complete" none now).tasks tid =
      some (progressUpdate 2 "Model validation complete" none now
        (progressUpdate 0 "Starting TTS generation" (some TaskStatus.processing)
          now t0)) := by
    rw [lookup_update_task_progress, if_pos rfl, hl1]; rfl
  have hl3 : lookupTask (update_task_progress (update_task_progress
      (update_task_progress st tid 0 "Starting TTS generation"
        (some TaskStatus.processing) now) tid 2 "Model validation complete" none
        now) tid 5 "Voice configuration validated" none now).tasks tid =
      some (progressUpdate 5 "Voice configuration validated" none now
        (progressUpdate 2 "Model validation complete" none now
          (progressUpdate 0 "Starting TTS generation" (some TaskStatus.processing)
            now t0))) := by
    rw [lookup_update_task_progress, if_pos rfl, hl2]; rfl
  have hl4 : lookupTask (set_task_chunks (update_task_progress
      (update_task_progress (update_task_progress st tid 0
        "Starting TTS generation" (some TaskStatus.processing) now) tid 2
        "Model validation complete" none now) tid 5
        "Voice configuration validated" none now) tid
      (process_text_chunks env req).length).tasks tid =
      some (chunksUpdate (process_text_chunks env req).length
        (progressUpdate 5 "Voice configuration validated" none now
          (progressUpdate 2 "Model validation complete" none now
            (progressUpdate 0 "Starting TTS generation" (some TaskStatus.processing)
              now t0)))) := by
    rw [lookup_set_task_chunks, if_pos rfl, hl3]; rfl
  have hl5 : lookupTask (update_task_progress (set_task_chunks
      (update_task_progress (update_task_progress (update_task_progress st tid 0
        "Starting TTS generation" (some TaskStatus.processing) now) tid 2
        "Model validation complete" none now) tid 5
        "Voice configuration validated" none now) tid
      (process_text_chunks env req).length) tid 10
      (s!"Text split into {(process_text_chunks env req).length} chunks") none
      now).tasks tid =
      some (progressUpdate 10
        (s!"Text split into {(process_text_chunks env req).length} chunks") none now
        (chunksUpdate (process_text_chunks env req).length
          (progressUpdate 5 "Voice configuration validated" none now
            (progressUpdate 2 "Model validation complete" none now
              (progressUpdate 0 "Starting TTS generation"
                (some TaskStatus.processing) now t0))))) := by
    rw [lookup_update_task_progress, if_pos rfl, hl4]; rfl
  obtain ⟨st6, u6, heq, hlu6, hstat6, hres6, herr6, htot6, hcomp6⟩ :=
    synthLoop_success env tid (process_text_chunks env req).length now
      (process_text_chunks env req)
      (update_task_progress (set_task_chunks (update_task_progress
        (update_task_progress (update_task_progress st tid 0
          "Starting TTS generation" (some TaskStatus.processing) now) tid 2
          "Model validation complete" none now) tid 5
          "Voice configuration validated" none now) tid
        (process_text_chunks env req).length) tid 10
        (s!"Text split into {(process_text_chunks env req).length} chunks") none now)
      0
      (progressUpdate 10
        (s!"Text split into {(process_text_chunks env req).length} chunks") none now
        (chunksUpdate (process_text_chunks env req).length
          (progressUpdate 5 "Voice configuration validated" none now
            (progressUpdate 2 "Model validation complete" none now
              (progressUpdate 0 "Starting TTS generation"
                (some TaskStatus.processing) now t0)))))
      (by simpa using hs) hl5
  refine ⟨update_task_progress (update_task_progress (update_task_progress
      (update_task_progress (update_task_progress st6 tid 80
        "All chunks synthesized, concatenating audio" none now) tid 85
        "Audio concatenation complete" none now) tid 90
        "Applying final post-processing" none now) tid 95
      (s!"Audio encoded to {resolveFormat req env.default_output_format}") none
      now) tid 100 "TTS generation completed successfully" none now,
    ?_, ?_, ?_⟩
  · exact progressUpdate 100 "TTS generation completed successfully" none now
      (progressUpdate 95
        (s!"Audio encoded to {resolveFormat req env.default_output_format}") none now
        (progressUpdate 90 "Applying final post-processing" none now
          (progressUpdate 85 "Audio concatenation complete" none now
            (progressUpdate 80 "All chunks synthesized, concatenating audio" none
              now u6))))
  · have hemp : (process_text_chunks env req).isEmpty = false := by
      cases hpc : process_text_chunks env req with
      | nil => exact absurd hpc hc
      | cons a l => rfl
    have hdec : (decide (elen < 100)) = false := decide_eq_false (Nat.not_lt.mpr hlen)
    simp only [generate_tts_body, hm, hv, hemp, heq, hcat, henc, hdec]
    rfl
  · have hlu7 : lookupTask (update_task_progress st6 tid 80
        "All chunks synthesized, concatenating audio" none now).tasks tid =
        some (progressUpdate 80 "All chunks synthesized, concatenating audio" none
          now u6) := by
      rw [lookup_update_task_progress, if_pos rfl, hlu6]; rfl
    have hlu8 : lookupTask (update_task_progress (update_task_progress st6 tid 80
        "All chunks synthesized, concatenating audio" none now) tid 85
        "Audio concatenation complete" none now).tasks tid =
        some (progressUpdate 85 "Audio concatenation complete" none now
          (progressUpdate 80 "All chunks synthesized, concatenating audio" none
            now u6)) := by
      rw [lookup_update_task_progress, if_pos rfl, hlu7]; rfl
    have hlu9 : lookupTask (update_task_progress (update_task_progress
        (update_task_progress st6 tid 80
          "All chunks synthesized, concatenating audio" none now) tid 85
        "Audio concatenation complete" none now) tid 90
        "Applying final post-processing" none now).tasks tid =
        some (progressUpdate 90 "Applying final post-processing" none now
          (progressUpdate 85 "Audio concatenation complete" none now
            (progressUpdate 80 "All chunks synthesized, concatenating audio" none
              now u6))) := by
      rw [lookup_update_task_progress, if_pos rfl, hlu8]; rfl
    have hlu10 : lookupTask (update_task_progress (update_task_progress
        (update_task_progress (update_task_progress st6 tid 80
          "All chunks synthesized, concatenating audio" none now) tid 85
          "Audio concatenation complete" none now) tid 90
          "Applying final post-processing" none now) tid 95
        (s!"Audio encoded to {resolveFormat req env.default_output_format}") none
        now).tasks tid =
        some (progressUpdate 95
          (s!"Audio encoded to {resolveFormat req env.default_output_format}") none
          now (progressUpdate 90 "Applying final post-processing" none now
            (progressUpdate 85 "Audio concatenation complete" none now
              (progressUpdate 80 "All chunks synthesized, concatenating audio" none
                now u6)))) := by
      rw [lookup_update_task_progress, if_pos rfl, hlu9]; rfl
    have hlu11 : lookupTask (update_task_progress (update_task_progress
        (update_task_progress (update_task_progress (update_task_progress st6 tid
          80 "All chunks synthesized, concatenating audio" none now) tid 85
          "Audio concatenation complete" none now) tid 90
          "Applying final post-processing" none now) tid 95
        (s!"Audio encoded to {resolveFormat req env.default_output_format}") none
        now) tid 100 "TTS generation completed successfully" none now).tasks tid =
        some (progressUpdate 100 "TTS generation completed successfully" none now
          (progressUpdate 95
            (s!"Audio encoded to {resolveFormat req env.default_output_format}")
            none now (progressUpdate 90 "Applying final post-processing" none now
              (progressUpdate 85 "Audio concatenation complete" none now
                (progressUpdate 80 "All chunks synthesized, concatenating audio"
                  none now u6))))) := by
      rw [lookup_update_task_progress, if_pos rfl, hlu10]; rfl
    refine ⟨hlu11, ?_, ?_, ?_, ?_, ?_⟩
    · show (progressUpdate 100 "TTS generation completed successfully" none now
        (progressUpdate 95
          (s!"Audio encoded to {resolveFormat req env.default_output_format}")
          none now (progressUpdate 90 "Applying final post-processing" none now
            (progressUpdate 85 "Audio concatenation complete" none now
              (progressUpdate 80 "All chunks synthesized, concatenating audio"
                none now u6))))).status = TaskStatus.processing
      rw [show (progressUpdate 100 "TTS generation completed successfully" none now
        (progressUpdate 95
          (s!"Audio encoded to {resolveFormat req env.default_output_format}")
          none now (progressUpdate 90 "Applying final post-processing" none now
            (progressUpdate 85 "Audio concatenation complete" none now
              (progressUpdate 80 "All chunks synthesized, concatenating audio"
                none now u6))))).status = u6.status from rfl, hstat6]
      rfl
    · rw [show (progressUpdate 100 "TTS generation completed successfully" none now
        (progressUpdate 95
          (s!"Audio encoded to {resolveFormat req env.default_output_format}")
          none now (progressUpdate 90 "Applying final post-processing" none now
            (progressUpdate 85 "Audio concatenation complete" none now
              (progressUpdate 80 "All chunks synthesized, concatenating audio"
                none now u6))))).result_path = u6.result_path from rfl, hres6]
      rfl
    · rw [show (progressUpdate 100 "TTS generation completed successfully" none now
        (progressUpdate 95
          (s!"Audio encoded to {resolveFormat req env.default_output_format}")
          none now (progressUpdate 90 "Applying final post-processing" none now
            (progressUpdate 85 "Audio concatenation complete" none now
              (progressUpdate 80 "All chunks synthesized, concatenating audio"
                none now u6))))).error_message = u6.error_message from rfl, herr6]
      rfl
    · rw [show (progressUpdate 100 "TTS generation completed successfully" none now
        (progressUpdate 95
          (s!"Audio encoded to {resolveFormat req env.default_output_format}")
          none now (progressUpdate 90 "Applying final post-processing" none now
            (progressUpdate 85 "Audio concatenation complete" none now
              (progressUpdate 80 "All chunks synthesized, concatenating audio"
                none now u6))))).total_chunks = u6.total_chunks from rfl, htot6]
      rfl
    · rw [show (progressUpdate 100 "TTS generation completed successfully" none now
        (progressUpdate 95
          (s!"Audio encoded to {resolveFormat req env.default_output_format}")
          none now (progressUpdate 90 "Applying final post-processing" none now
            (progressUpdate 85 "Audio concatenation complete" none now
              (progressUpdate 80 "All chunks synthesized, concatenating audio"
                none now u6))))).completed_chunks = u6.completed_chunks from rfl,
        hcomp6]
      rfl

/-- C1: when every pipeline step succeeds (engine loaded, voice valid, at
    least one chunk, every chunk synthesized, concatenation and encoding
    succeed, file persisted), the driver returns the persisted location and
    the completion glue calls `set_task_completed` with it, so the job ends
    with status completed, progress 100, result_path the persisted location,
    and error_message unset.  The glue (`run_tts_job`) is modelled from the
    spec because the HTTP layer that records the driver result is not under
    src/. -/
theorem run_tts_job_success_completes (env : Env) (tid : String)
    (req : CustomTTSRequest) (now : Int) (st : TMState) (t0 : TTSTask) (vp : String)
    (elen : Nat)
    (hm : env.model_loaded = true)
    (hv : validate_voice_config env req = Except.ok vp)
    (hc : process_text_chunks env req ≠ [])
    (hs : ∀ i, i < (process_text_chunks env req).length →
      (env.synth_result i).isSome = true)
    (hcat : env.concat_ok = true)
    (henc : env.encode_len = some elen)
    (hlen : 100 ≤ elen)
    (ht : lookupTask st.tasks tid = some t0)
    (herr : t0.error_message = none) :
    ∃ u, lookupTask (run_tts_job env tid req now st).tasks tid = some u ∧
      u.status = TaskStatus.completed ∧
      u.progress = 100 ∧
      u.result_path = some env.save_path ∧
      u.error_message = none ∧
      (generate_tts_async env tid req now st).2 = some env.save_path := by
  obtain ⟨st2, u, hbody, hlu, hstat, hres, herru, htot, hcomp⟩ :=
    generate_tts_body_success env tid req now st t0 vp elen hm hv hc hs hcat henc
      hlen ht
  have hasync : generate_tts_async env tid req now st = (st2, some env.save_path) := by
    unfold generate_tts_async
    rw [hbody]
  have hrun : run_tts_job env tid req now st =
      set_task_completed st2 tid env.save_path now := by
    unfold run_tts_job
    rw [hasync]
  refine ⟨completedUpdate env.save_path now u, ?_, rfl, rfl, rfl, ?_, by rw [hasync]⟩
  · rw [hrun]
    show lookupTask (set_task_completed st2 tid env.save_path now).tasks tid = _
    rw [lookup_set_task_completed, if_pos rfl, hlu]
    rfl
  · show (completedUpdate env.save_path now u).error_message = none
    rw [show (completedUpdate env.save_path now u).error_message = u.error_message
      from rfl, herru, herr]

/-- Environment in which every external collaborator succeeds. -/
def envUp : Env :=
  { model_loaded := true
    predefined_voices_path := "/voices"
    reference_audio_path := "/refs"
    is_file := fun _ => true
    chunk_text := fun _ _ => []
    synth_result := fun _ => some 24000
    concat_ok := true
    concat_msg := ""
    encode_len := some 4000
    save_path := "/outputs/a.wav"
    default_output_format := "wav" }

/-- Witness for `run_tts_job_success_completes` on a freshly created job in
    the all-success environment. -/
theorem run_tts_job_success_completes_witness :
    ∃ u, lookupTask (run_tts_job envUp "a" sampleReq 1
        (create_task initState "a" sampleReq 0)).tasks "a" = some u ∧
      u.status = TaskStatus.completed ∧
      u.progress = 100 ∧
      u.result_path = some envUp.save_path ∧
      u.error_message = none ∧
      (generate_tts_async envUp "a" sampleReq 1
        (create_task initState "a" sampleReq 0)).2 = some envUp.save_path :=
  run_tts_job_success_completes envUp "a" sampleReq 1
    (create_task initState "a" sampleReq 0) (freshTask "a" sampleReq 0)
    "/voices/default.wav" 4000 rfl rfl (by decide)
    (fun i _ => rfl) rfl rfl (by decide) (by decide) rfl

/-- C9: chunk-counter discipline of the driver.  (a) For any store state in
    which the job has `total_chunks` equal to the driver's chunk count and
    `completed_chunks` 0 (the state `set_task_chunks` establishes before the
    loop), running the loop on any prefix of the chunk list leaves
    `completed_chunks` equal to the length of that prefix and never above
    `total_chunks` — so the counter never exceeds the total at any
    intermediate point.  (b) On the full successful run, the state the driver
    hands to `set_task_completed` has `completed_chunks` equal to
    `total_chunks` equal to the chunk count: the counter reaches N before the
    job is marked completed. -/
theorem completed_chunks_bounded_and_reaches_total (env : Env) (tid : String)
    (req : CustomTTSRequest) (now : Int) (st : TMState) (t0 : TTSTask) (vp : String)
    (elen : Nat)
    (hm : env.model_loaded = true)
    (hv : validate_voice_config env req = Except.ok vp)
    (hc : process_text_chunks env req ≠ [])
    (hs : ∀ i, i < (process_text_chunks env req).length →
      (env.synth_result i).isSome = true)
    (hcat : env.concat_ok = true)
    (henc : env.encode_len = some elen)
    (hlen : 100 ≤ elen)
    (ht : lookupTask st.tasks tid = some t0)
    (hcmp0 : t0.completed_chunks = 0) :
    (∀ (stStart : TMState) (t1 : TTSTask) (pre suf : List String),
        process_text_chunks env req = pre ++ suf →
        lookupTask stStart.tasks tid = some t1 →
        t1.total_chunks = (process_text_chunks env req).length →
        t1.completed_chunks = 0 →
        (∀ i, i < pre.length → (env.synth_result i).isSome = true) →
        ∃ u, lookupTask ((synthLoop env tid (process_text_chunks env req).length
            now stStart pre 0).1).tasks tid = some u ∧
          u.completed_chunks = pre.length ∧
          u.completed_chunks ≤ u.total_chunks) ∧
    (∃ u, lookupTask ((generate_tts_async env tid req now st).1).tasks tid =
        some u ∧
      u.completed_chunks = (process_text_chunks env req).length ∧
      u.total_chunks = (process_text_chunks env req).length) := by
  constructor
  · intro stStart t1 pre suf hsplit hlk htot1 hcmp1 hsyn
    obtain ⟨st2, u, heq, hlu, -, -, -, htotu, hcompu⟩ :=
      synthLoop_success env tid (process_text_chunks env req).length now pre
        stStart 0 t1 (by simpa using hsyn) hlk
    refine ⟨u, ?_, ?_, ?_⟩
    · rw [heq]
      exact hlu
    · rw [hcompu, hcmp1]
      simp
    · rw [hcompu, hcmp1, htotu, htot1, hsplit]
      simp
  · obtain ⟨st2, u, hbody, hlu, -, -, -, htotu, hcompu⟩ :=
      generate_tts_body_success env tid req now st t0 vp elen hm hv hc hs hcat henc
        hlen ht
    have hasync : (generate_tts_async env tid req now st).1 = st2 := by
      unfold generate_tts_async
      rw [hbody]
    refine ⟨u, by rw [hasync]; exact hlu, ?_, htotu⟩
    rw [hcompu, hcmp0]
    simp

/-- Witness for `completed_chunks_bounded_and_reaches_total` on the one-chunk
    all-success job. -/
theorem completed_chunks_bounded_and_reaches_total_witness :
    (∀ (stStart : TMState) (t1 : TTSTask) (pre suf : List String),
        process_text_chunks envUp sampleReq = pre ++ suf →
        lookupTask stStart.tasks "a" = some t1 →
        t1.total_chunks = (process_text_chunks envUp sampleReq).length →
        t1.completed_chunks = 0 →
        (∀ i, i < pre.length → (envUp.synth_result i).isSome = true) →
        ∃ u, lookupTask ((synthLoop envUp "a"
            (process_text_chunks envUp sampleReq).length 1 stStart pre 0).1).tasks
            "a" = some u ∧
          u.completed_chunks = pre.length ∧
          u.completed_chunks ≤ u.total_chunks) ∧
    (∃ u, lookupTask ((generate_tts_async envUp "a" sampleReq 1
        (create_task initState "a" sampleReq 0)).1).tasks "a" = some u ∧
      u.completed_chunks = (process_text_chunks envUp sampleReq).length ∧
      u.total_chunks = (process_text_chunks envUp sampleReq).length) :=
  completed_chunks_bounded_and_reaches_total envUp "a" sampleReq 1
    (create_task initState "a" sampleReq 0) (freshTask "a" sampleReq 0)
    "/voices/default.wav" 4000 rfl rfl (by decide) (fun i _ => rfl) rfl rfl
    (by decide) (by decide) rfl
